/-
Verification of the SpayGen chunk-fill-validate-retry-merge-fix pipeline.

Shallow embedding of the core components:
 * string helpers mirroring Python substring / lower-casing / re.sub semantics,
 * the chunk-level content validator (selective_chunk_processor_node.py),
 * the HTML chunker (core/html_chunker.py),
 * the chunk processor and selective retry coordinator,
 * the validation-issue classifier and targeted fixers (targeted_fixing_node.py),
 * a small labelled transition system for the bounded-concurrency semaphore.

Scores are modelled as rationals; the Python float literals involved (0.7,
0.8, 0.9 and their products) are exactly representable for the comparisons
the code performs, so no behaviour is lost.
-/
import Mathlib

namespace SpayGen

/-! ### String helpers (Python semantics) -/

/-- ASCII lower-casing of a character list, mirroring `str.lower` on the
ASCII fragment used by the validators. -/
def lowerChars (s : List Char) : List Char := s.map Char.toLower

/-- `str.lower` on strings. -/
def strLower (s : String) : String := ⟨lowerChars s.data⟩

/-- Boolean list-prefix test. -/
def listPfx : List Char → List Char → Bool
  | [], _ => true
  | _ :: _, [] => false
  | a :: as, b :: bs => a == b && listPfx as bs

/-- Boolean substring occurrence test on character lists. -/
def occursInChars (pat : List Char) : List Char → Bool
  | [] => listPfx pat []
  | c :: rest => listPfx pat (c :: rest) || occursInChars pat rest

/-- Python `pat in s` (contiguous-substring membership). -/
def pyIn (pat s : String) : Bool := occursInChars pat.data s.data

/-- Python `str.split()` with no argument over a character list, with the
current word accumulated in reverse: split on whitespace runs, discarding
empty fragments. -/
def pySplitAux : List Char → List Char → List String
  | [], acc => if acc.isEmpty then [] else [⟨acc.reverse⟩]
  | c :: rest, acc =>
    if c.isWhitespace then
      if acc.isEmpty then pySplitAux rest []
      else (⟨acc.reverse⟩ : String) :: pySplitAux rest []
    else pySplitAux rest (c :: acc)

/-- Python `str.split()` with no argument. -/
def pySplit (s : String) : List String := pySplitAux s.data []

/-- Python `s.split(sep)` with a nonempty separator, on character lists
(for an empty separator the whole input is returned, which never arises in
the source).  Fuelled by the input length plus one; every step consumes at
least one character. -/
def splitOnAux (sep : List Char) : Nat → List Char → List Char →
    List (List Char)
  | 0, s, acc => [acc.reverse ++ s]
  | _ + 1, [], acc => [acc.reverse]
  | fuel + 1, c :: cs, acc =>
    if sep.isEmpty then [acc.reverse ++ c :: cs]
    else if listPfx sep (c :: cs) then
      acc.reverse :: splitOnAux sep fuel ((c :: cs).drop sep.length) []
    else splitOnAux sep fuel cs (c :: acc)

/-- Python `s.split(sep)` / Lean `String.splitOn` for a nonempty
separator. -/
def pySplitOn (s sep : String) : List String :=
  (splitOnAux sep.data (s.data.length + 1) s.data []).map (fun l => ⟨l⟩)

/-- Python `str.strip()`: drop whitespace at both ends. -/
def pyStrip (s : String) : String :=
  ⟨(((s.data.dropWhile Char.isWhitespace).reverse.dropWhile
      Char.isWhitespace).reverse)⟩

/-! ### Data model (pydantic_models.py, html_chunker.py dataclasses) -/

/-- `WhitePageSpec` (pydantic_models.py). `products` is `Optional[List[str]]`
in the source; `None` and `[]` behave identically everywhere the core reads
it (only truthiness and iteration), so both are modelled by `[]`. -/
structure WhitePageSpec where
  page_type : String
  brand_name : String
  business_description : String
  contact_email : String
  contact_phone : String
  address : String
  page_name : String
  products : List String
  geo_location : String
  deriving Repr, DecidableEq

/-- `GeneratedContent` (pydantic_models.py). The `items`/`images`/
`contact_info` payloads are opaque to the core (they are only rendered into
the filler prompt), so they are modelled by their rendered text. -/
structure GeneratedContent where
  items : String
  images : String
  contact_info : String
  enhancement_instructions : List String
  deriving Repr, DecidableEq

/-- Chunk metadata dictionary (the keys written by `_extract_element_metadata`
and `_create_head_chunk`). -/
structure ChunkMetadata where
  tag_name : String
  classes : List String
  element_id : Option String
  priority : String
  modifiable : Bool
  deriving Repr, DecidableEq

/-- `HTMLChunk` dataclass (core/html_chunker.py). -/
structure HTMLChunk where
  id : String
  content : String
  chunk_type : String
  dependencies : List String
  css_selectors : List String
  size : Nat
  metadata : ChunkMetadata
  deriving Repr, DecidableEq

/-- `ChunkProcessingResult` dataclass (core/html_chunker.py). -/
structure ChunkProcessingResult where
  chunk_id : String
  processed_content : String
  validation_score : ℚ
  errors : List String
  warnings : List String
  deriving Repr, DecidableEq

/-! ### Chunk content validator (selective_chunk_processor_node.py) -/

/-- `ChunkValidationResult` dataclass. -/
structure ChunkValidationResult where
  chunk_id : String
  is_valid : Bool
  score : ℚ
  errors : List String
  warnings : List String
  needs_regeneration : Bool
  deriving Repr, DecidableEq

/-- The generic placeholder brand list of
`ChunkContentValidator._validate_brand_presence`. -/
def generic_brands : List String :=
  ["lumina jewelry", "stellar gems", "golden touch", "diamond dreams",
   "jewelry store", "company name", "brand name", "your brand"]

/-- `ChunkContentValidator._validate_brand_presence`: returns
(valid?, errors). -/
def validate_brand_presence (spec : WhitePageSpec) (content : String) :
    Bool × List String :=
  let content_lower := strLower content
  let brand_lower := strLower spec.brand_name
  let has_generic := generic_brands.any (fun g => pyIn g content_lower)
  let has_correct_brand := pyIn brand_lower content_lower
  let errors :=
    if has_generic && !has_correct_brand then
      ["Contains generic brand names instead of " ++ spec.brand_name]
    else if has_generic then
      ["Contains both correct and generic brand names"]
    else if !has_correct_brand &&
        (["jewelry", "store", "brand"].any (fun w => pyIn w content_lower)) then
      ["Missing brand name " ++ spec.brand_name ++ " in relevant context"]
    else []
  (errors.length == 0, errors)

/-- The phone marker list of `_validate_contact_info`. -/
def phone_patterns : List String := ["+7", "8-", "495", "123-45-67"]

/-- `ChunkContentValidator._validate_contact_info`: returns
(valid?, errors). -/
def validate_contact_info (spec : WhitePageSpec) (content : String) :
    Bool × List String :=
  let e1 :=
    if pyIn "@" content &&
        !(pyIn spec.contact_email content) &&
        (pyIn "example.com" content || pyIn "gmail.com" content) then
      ["Contains generic email instead of " ++ spec.contact_email]
    else []
  let e2 :=
    if (phone_patterns.any (fun p => pyIn p content)) &&
        !(pyIn spec.contact_phone content) then
      ["Contains incorrect phone number instead of " ++ spec.contact_phone]
    else []
  let e3 :=
    if (pyIn "москва" (strLower content) || pyIn "moscow" (strLower content)) &&
        !(pyIn spec.address content) then
      ["Contains incorrect address instead of " ++ spec.address]
    else []
  let errors := e1 ++ e2 ++ e3
  (errors.length == 0, errors)

/-- `ChunkContentValidator._validate_content_relevance`: returns
(valid?, warnings). -/
def validate_content_relevance (spec : WhitePageSpec) (content : String) :
    Bool × List String :=
  let content_lower := strLower content
  let w1 :=
    if spec.products ≠ [] then
      let product_terms := spec.products.map strLower
      if !(product_terms.any (fun t => pyIn t content_lower)) &&
          (["продукт", "товар", "украшение"].any
            (fun w => pyIn w content_lower)) then
        ["Contains generic product references instead of specific products"]
      else []
    else []
  let business_keywords := pySplit (strLower spec.business_description)
  let relevant_keywords := business_keywords.filter (fun w => w.length > 4)
  let w2 :=
    if relevant_keywords.length > 0 then
      let matching :=
        (relevant_keywords.filter (fun k => pyIn k content_lower)).length
      if (matching : ℚ) / (relevant_keywords.length : ℚ) < 3/10 then
        ["Content does not align well with business description"]
      else []
    else []
  let warnings := w1 ++ w2
  (warnings.length == 0, warnings)

/-- Return shape of `ChunkContentValidator.validate_chunk_content`. -/
structure ChunkValidation where
  is_valid : Bool
  score : ℚ
  errors : List String
  warnings : List String
  has_brand_mismatch : Bool
  deriving Repr, DecidableEq

/-- `ChunkContentValidator.validate_chunk_content`: score starts at 1.0 and
is reduced multiplicatively by the brand (×0.7), contact (×0.8) and
relevance (×0.9) checks; `is_valid` is `score ≥ 0.7`. -/
def validate_chunk_content (spec : WhitePageSpec) (chunk_content : String) :
    ChunkValidation :=
  let brand := validate_brand_presence spec chunk_content
  let errors1 : List String := if !brand.1 then brand.2 else []
  let score1 : ℚ := if !brand.1 then 1 * (7/10) else 1
  let has_brand_mismatch := !brand.1
  let contact := validate_contact_info spec chunk_content
  let errors2 := if !contact.1 then errors1 ++ contact.2 else errors1
  let score2 := if !contact.1 then score1 * (8/10) else score1
  let relevance := validate_content_relevance spec chunk_content
  let warnings := if !relevance.1 then relevance.2 else []
  let score3 := if !relevance.1 then score2 * (9/10) else score2
  { is_valid := decide (score3 ≥ 7/10)
    score := score3
    errors := errors2
    warnings := warnings
    has_brand_mismatch := has_brand_mismatch }

/-- `SelectiveChunkProcessor._validate_chunk_results`: runs the content
validator over every result; `needs_regeneration` is
`score < 0.7 ∨ has_brand_mismatch`. -/
def validate_chunk_results (chunk_results : List ChunkProcessingResult)
    (spec : WhitePageSpec) : List ChunkValidationResult :=
  chunk_results.map (fun result =>
    let validation := validate_chunk_content spec result.processed_content
    { chunk_id := result.chunk_id
      is_valid := validation.is_valid
      score := validation.score
      errors := validation.errors
      warnings := validation.warnings
      needs_regeneration :=
        decide (validation.score < 7/10) || validation.has_brand_mismatch })

/-! ### HTML tree model

The source manipulates HTML through BeautifulSoup with the `html.parser`
builder.  Documents are modelled as lists of nodes (text or element); the
serializer mirrors `str(soup)` on the fragment the pipeline produces
(double-quoted attributes, `/`-terminated void elements, no entity
escaping), and the parser is a stack machine mirroring `html.parser`
tree building: maximal text runs are coalesced, unknown closing tags are
ignored, a closing tag closes intermediate open elements up to the
matching open one, and unclosed elements are closed at end of input. -/

inductive Node where
  | text : String → Node
  | elem : String → List (String × String) → List Node → Node
  deriving Repr, Inhabited

/-- The HTML void elements (serialized self-closed, parsed without
children). -/
def void_elements : List String :=
  ["area", "base", "br", "col", "embed", "hr", "img", "input", "link",
   "meta", "source", "track", "wbr"]

/-- Serialize an attribute list as BeautifulSoup renders it. -/
def serAttrsC : List (String × String) → List Char
  | [] => []
  | (k, v) :: as => ' ' :: (k.data ++ '=' :: '"' :: v.data ++ '"' :: serAttrsC as)

mutual

/-- `str(node)` at character level. -/
def serNodeC : Node → List Char
  | .text s => s.data
  | .elem name attrs children =>
    if void_elements.contains name then
      '<' :: (name.data ++ serAttrsC attrs ++ ['/', '>'])
    else
      '<' :: (name.data ++ serAttrsC attrs ++ '>' :: serNodesC children) ++
        '<' :: '/' :: (name.data ++ ['>'])

/-- `str(soup)` over a node list, at character level. -/
def serNodesC : List Node → List Char
  | [] => []
  | n :: ns => serNodeC n ++ serNodesC ns

end

/-- `str(soup)`. -/
def str_soup (ns : List Node) : String := ⟨serNodesC ns⟩

/-- `str(element)`. -/
def str_node (n : Node) : String := ⟨serNodeC n⟩

/-- Characters `html.parser` accepts inside a tag name. -/
def nameChar (c : Char) : Bool :=
  c.isAlphanum || c == '-' || c == '.' || c == ':' || c == '_'

/-- Characters accepted inside an attribute key. -/
def attrKeyChar (c : Char) : Bool :=
  !(c.isWhitespace || c == '=' || c == '>' || c == '/' || c == '"')

/-- Attribute parser of the tag scanner: consumes up to and including the
closing `>` and reports whether the tag was self-closing.  Fuelled by the
input length; every step consumes at least one character. -/
def parseAttrs : Nat → List Char → List (String × String) × Bool × List Char
  | 0, s => ([], false, s)
  | _ + 1, [] => ([], false, [])
  | fuel + 1, c :: rest =>
    if c == '>' then ([], false, rest)
    else if c == '/' then
      match rest with
      | '>' :: rest2 => ([], true, rest2)
      | _ => parseAttrs fuel rest
    else if !(attrKeyChar c) then parseAttrs fuel rest
    else
      let key : String := ⟨(c :: rest).takeWhile attrKeyChar⟩
      let after := (c :: rest).dropWhile attrKeyChar
      match after with
      | '=' :: '"' :: r =>
        let v : String := ⟨r.takeWhile (fun x => x != '"')⟩
        let r2 := r.dropWhile (fun x => x != '"')
        let r3 := match r2 with
          | '"' :: t => t
          | other => other
        let res := parseAttrs fuel r3
        ((key, v) :: res.1, res.2)
      | _ =>
        let res := parseAttrs fuel after
        ((key, "") :: res.1, res.2)

/-- An open element on the tree-builder stack: its name, attributes, and
the already-built (reversed) siblings of the element in its parent. -/
structure Frame where
  name : String
  attrs : List (String × String)
  saved : List Node
  deriving Repr

/-- Append a text run to the reversed child accumulator, coalescing with a
preceding text node as `html.parser` data handling does. -/
def attachText (t : List Char) (curr : List Node) : List Node :=
  match curr with
  | Node.text t0 :: rest => Node.text (t0 ++ ⟨t⟩) :: rest
  | _ => Node.text ⟨t⟩ :: curr

/-- Close every open element at end of input. -/
def unwindStack : List Node → List Frame → List Node
  | curr, [] => curr.reverse
  | curr, f :: fs => unwindStack (Node.elem f.name f.attrs curr.reverse :: f.saved) fs

/-- Does any open element carry this name? -/
def stackHasName (name : String) (fs : List Frame) : Bool :=
  fs.any (fun f => f.name == name)

/-- Close open elements up to and including the one named `name`. -/
def popTo (name : String) : List Node → List Frame → List Node × List Frame
  | curr, [] => (curr, [])
  | curr, f :: fs =>
    let closed := Node.elem f.name f.attrs curr.reverse :: f.saved
    if f.name == name then (closed, fs) else popTo name closed fs

/-- The tree-building loop of the parser.  `curr` holds the reversed
children of the innermost open element (or the reversed top-level nodes),
`stack` the open elements.  Fuelled by the input length; every step
consumes at least one character. -/
def parseLoop : Nat → List Char → List Node → List Frame → List Node
  | 0, _, curr, stack => unwindStack curr stack
  | _ + 1, [], curr, stack => unwindStack curr stack
  | fuel + 1, c :: rest, curr, stack =>
    if c == '<' then
      match rest with
      | [] => unwindStack (attachText ['<'] curr) stack
      | d :: rest2 =>
        if d == '/' then
          let cname : String := ⟨rest2.takeWhile nameChar⟩
          let r1 := rest2.dropWhile nameChar
          let r2 := r1.dropWhile (fun x => x != '>')
          let r3 := match r2 with
            | '>' :: t => t
            | other => other
          if cname != "" && stackHasName cname stack then
            let pr := popTo cname curr stack
            parseLoop fuel r3 pr.1 pr.2
          else
            parseLoop fuel r3 curr stack
        else if d.isAlpha then
          let name : String := ⟨(d :: rest2).takeWhile nameChar⟩
          let afterName := (d :: rest2).dropWhile nameChar
          let pa := parseAttrs afterName.length afterName
          if void_elements.contains name || pa.2.1 then
            parseLoop fuel pa.2.2 (Node.elem name pa.1 [] :: curr) stack
          else
            parseLoop fuel pa.2.2 [] ({ name := name, attrs := pa.1, saved := curr } :: stack)
        else
          parseLoop fuel rest (attachText ['<'] curr) stack
    else
      let t := (c :: rest).takeWhile (fun x => x != '<')
      parseLoop fuel ((c :: rest).dropWhile (fun x => x != '<')) (attachText t curr) stack

/-- `BeautifulSoup(s, "html.parser")`: the top-level node list. -/
def parseHtml (s : String) : List Node := parseLoop s.data.length s.data [] []

/-! ### Tree queries (the BeautifulSoup operations the source uses) -/

/-- Is the node a `Tag`? -/
def isElem : Node → Bool
  | .text _ => false
  | .elem _ _ _ => true

/-- `element.name` (`none` for a text node). -/
def nodeName : Node → Option String
  | .text _ => none
  | .elem n _ _ => some n

/-- Is the node an element with this name? -/
def named (name : String) (n : Node) : Bool :=
  match n with
  | .elem nm _ _ => nm == name
  | .text _ => false

/-- `attrs.get(key)` on the attribute dictionary. -/
def getAttr (attrs : List (String × String)) (key : String) : Option String :=
  (attrs.find? (fun kv => kv.1 == key)).map (fun kv => kv.2)

/-- Dictionary assignment `attrs[key] = value`: replace in place or
append. -/
def setAttr (attrs : List (String × String)) (key value : String) :
    List (String × String) :=
  if (attrs.find? (fun kv => kv.1 == key)).isSome then
    attrs.map (fun kv => if kv.1 == key then (key, value) else kv)
  else
    attrs ++ [(key, value)]

mutual

/-- `soup.find(pred)` on a node: the node itself or its first matching
descendant, in document order. -/
def findElemN (p : Node → Bool) : Node → Option Node
  | .text _ => none
  | .elem n a c =>
    if p (.elem n a c) then some (.elem n a c) else findElemL p c

/-- `soup.find(pred)` over a node list. -/
def findElemL (p : Node → Bool) : List Node → Option Node
  | [] => none
  | n :: ns =>
    match findElemN p n with
    | some x => some x
    | none => findElemL p ns

end

mutual

/-- All matching descendants of a node (including itself), in document
order: `find_all(pred)`. -/
def findAllN (p : Node → Bool) : Node → List Node
  | .text s => if p (.text s) then [.text s] else []
  | .elem n a c =>
    (if p (.elem n a c) then [Node.elem n a c] else []) ++ findAllL p c

/-- `find_all(pred)` over a node list. -/
def findAllL (p : Node → Bool) : List Node → List Node
  | [] => []
  | n :: ns => findAllN p n ++ findAllL p ns

end

/-- `element.string`: the single string of a single-child chain, else
`None`. -/
def nodeString : Node → Option String
  | .text s => some s
  | .elem _ _ [c] => nodeString c
  | .elem _ _ [] => none
  | .elem _ _ (_ :: _ :: _) => none

mutual

/-- `element.get_text()`. -/
def getTextN : Node → String
  | .text s => s
  | .elem _ _ children => getTextL children

/-- `get_text` over a node list. -/
def getTextL : List Node → String
  | [] => ""
  | n :: ns => getTextN n ++ getTextL ns

end

/-- Does a CSS class selector token match the element's `class`
attribute? -/
def hasClassToken (cls : String) (attrs : List (String × String)) : Bool :=
  (pySplit ((getAttr attrs "class").getD "")).contains cls

/-- One simple selector: `.class` or a plain tag name.  Selector strings
outside this fragment (attribute selectors and other syntax the source
never needs for the claims) match nothing, like an unknown tag name. -/
def matchesSimpleSelector (sel : String) (n : Node) : Bool :=
  match n with
  | .text _ => false
  | .elem name attrs _ =>
    if listPfx ['.'] sel.data then
      hasClassToken ⟨sel.data.drop 1⟩ attrs
    else name == sel

/-- `soup.select(sel)` membership: comma-separated selector groups. -/
def matchesSelector (sel : String) (n : Node) : Bool :=
  (pySplitOn sel ", ").any (fun s => matchesSimpleSelector s n)

mutual

/-- One top-down mutation pass: when `cond` holds on an element, replace
its contents with a single text node `newText` and rewrite its attributes
with `newAttrs` (the effect of `HTMLProcessor.update_element_text` plus an
optional attribute assignment); otherwise descend into the children. -/
def rewritePassN (cond : Node → Bool)
    (newAttrs : Node → List (String × String)) (newText : Node → String) :
    Node → Node
  | .text s => .text s
  | .elem n a c =>
    if cond (.elem n a c) then
      .elem n (newAttrs (.elem n a c)) [.text (newText (.elem n a c))]
    else
      .elem n a (rewritePassL cond newAttrs newText c)

/-- `rewritePassN` over a node list. -/
def rewritePassL (cond : Node → Bool)
    (newAttrs : Node → List (String × String)) (newText : Node → String) :
    List Node → List Node
  | [] => []
  | n :: ns =>
    rewritePassN cond newAttrs newText n ::
      rewritePassL cond newAttrs newText ns

end

mutual

/-- Replace the contents of the first matching element (document order)
with a single text node (`found_element.string = new`); the flag reports
whether a match was consumed. -/
def setFirstStringN (p : Node → Bool) (new : String) : Node → Node × Bool
  | .text s => (.text s, false)
  | .elem n a c =>
    if p (.elem n a c) then (.elem n a [.text new], true)
    else
      let r := setFirstStringL p new c
      (.elem n a r.1, r.2)

/-- `setFirstStringN` over a node list. -/
def setFirstStringL (p : Node → Bool) (new : String) :
    List Node → List Node × Bool
  | [] => ([], false)
  | n :: ns =>
    let r := setFirstStringN p new n
    if r.2 then (r.1 :: ns, true)
    else
      let rs := setFirstStringL p new ns
      (r.1 :: rs.1, rs.2)

end

/-- Set the string of the first matching element, if any. -/
def setFirstString (p : Node → Bool) (new : String) (ns : List Node) :
    List Node :=
  (setFirstStringL p new ns).1

mutual

/-- Assign an attribute on the first matching element (document order)
(`found_element[key] = value`). -/
def setFirstAttrN (p : Node → Bool) (key value : String) : Node → Node × Bool
  | .text s => (.text s, false)
  | .elem n a c =>
    if p (.elem n a c) then (.elem n (setAttr a key value) c, true)
    else
      let r := setFirstAttrL p key value c
      (.elem n a r.1, r.2)

/-- `setFirstAttrN` over a node list. -/
def setFirstAttrL (p : Node → Bool) (key value : String) :
    List Node → List Node × Bool
  | [] => ([], false)
  | n :: ns =>
    let r := setFirstAttrN p key value n
    if r.2 then (r.1 :: ns, true)
    else
      let rs := setFirstAttrL p key value ns
      (r.1 :: rs.1, rs.2)

end

/-- Assign an attribute on the first matching element, if any. -/
def setFirstAttr (p : Node → Bool) (key value : String) (ns : List Node) :
    List Node :=
  (setFirstAttrL p key value ns).1

/-! ### HTML chunker (core/html_chunker.py) -/

/-- `HTMLChunker.MAX_CHUNK_SIZE`. -/
def MAX_CHUNK_SIZE : Nat := 8000

/-- `HTMLChunker.STRUCTURAL_TAGS`. -/
def STRUCTURAL_TAGS : List String :=
  ["header", "nav", "main", "section", "article", "aside", "footer"]

/-- `HTMLChunker._create_head_chunk`. -/
def create_head_chunk (soup : List Node) : HTMLChunk :=
  let head_content :=
    match findElemL (named "head") soup with
    | some head => str_node head
    | none => "<head></head>"
  { id := "head"
    content := head_content
    chunk_type := "head"
    dependencies := []
    css_selectors := []
    size := head_content.length
    metadata :=
      { tag_name := "head", classes := [], element_id := none,
        priority := "high", modifiable := false } }

/-- `HTMLChunker._find_structural_elements`: direct children matching each
structural tag in tag order, else the first 10 direct element children. -/
def find_structural_elements (body : Node) : List Node :=
  let children :=
    match body with
    | .elem _ _ c => c
    | .text _ => []
  let structural_elements :=
    STRUCTURAL_TAGS.foldl (fun acc tag => acc ++ children.filter (named tag)) []
  if structural_elements.isEmpty then (children.filter isElem).take 10
  else structural_elements

/-- `HTMLChunker._get_opening_tag`. -/
def get_opening_tag (name : String) (attrs : List (String × String)) : String :=
  let attr_parts := attrs.map (fun kv => kv.1 ++ "=\"" ++ kv.2 ++ "\"")
  let attrs_str :=
    if attr_parts.isEmpty then "" else " " ++ String.intercalate " " attr_parts
  "<" ++ name ++ attrs_str ++ ">"

/-- `HTMLChunker._extract_element_metadata`. -/
def extract_element_metadata (name : String) (attrs : List (String × String)) :
    ChunkMetadata :=
  let base : ChunkMetadata :=
    { tag_name := name
      classes := pySplit ((getAttr attrs "class").getD "")
      element_id := getAttr attrs "id"
      priority := "medium"
      modifiable := true }
  if name == "nav" || name == "footer" then
    { base with priority := "low", modifiable := false }
  else if name == "header" || name == "main" then
    { base with priority := "high" }
  else base

/-- The greedy accumulation loop of `_split_large_element`, refactored to
return the packed groups of child serializations: flush the current group
when adding the next child would push wrapper + accumulated size over the
bound and the group is nonempty. -/
def packGroupsAux (maxSize baseSize : Nat) :
    List String → List String → Nat → List (List String)
  | [], current, _ => if current.isEmpty then [] else [current.reverse]
  | child :: rest, current, current_size =>
    let child_size := child.length
    if current_size + child_size + baseSize > maxSize && !current.isEmpty then
      current.reverse ::
        packGroupsAux maxSize baseSize rest [child] child_size
    else
      packGroupsAux maxSize baseSize rest (child :: current)
        (current_size + child_size)

/-- `HTMLChunker._split_large_element`. -/
def split_large_element (maxSize : Nat) (element : Node) (section_index : Nat) :
    List HTMLChunk :=
  match element with
  | .text _ => []
  | .elem name attrs children =>
    let child_elements := children.filter isElem
    let opening_tag := get_opening_tag name attrs
    let closing_tag := "</" ++ name ++ ">"
    let base_size := opening_tag.length + closing_tag.length
    let groups :=
      packGroupsAux maxSize base_size (child_elements.map str_node) [] 0
    groups.enum.map (fun ig =>
      let chunk_content := opening_tag ++ String.join ig.2 ++ closing_tag
      { id := "section_" ++ toString section_index ++ "_" ++ toString ig.1
        content := chunk_content
        chunk_type := name ++ "_part"
        dependencies := []
        css_selectors := []
        size := chunk_content.length
        metadata := extract_element_metadata name attrs })

/-- `HTMLChunker._split_body_content`. -/
def split_body_content (maxSize : Nat) (soup : List Node) : List HTMLChunk :=
  match findElemL (named "body") soup with
  | none => []
  | some body =>
    let structural_elements := find_structural_elements body
    (structural_elements.enum.map (fun ie =>
      let chunk_content := str_node ie.2
      if chunk_content.length > maxSize then
        split_large_element maxSize ie.2 ie.1
      else
        [{ id := "section_" ++ toString ie.1
           content := chunk_content
           chunk_type := (nodeName ie.2).getD "div"
           dependencies := []
           css_selectors := []
           size := chunk_content.length
           metadata :=
             match ie.2 with
             | .elem n a _ => extract_element_metadata n a
             | .text _ => extract_element_metadata "div" [] }])).flatten

/-- Start character of a CSS class name in the pattern of
`_extract_css_classes`. -/
def cssClassStart (c : Char) : Bool := c.isAlpha || c == '_' || c == '-'

/-- Continuation character of a CSS class name. -/
def cssClassChar (c : Char) : Bool := c.isAlphanum || c == '_' || c == '-'

/-- The scan of `re.findall` for the class pattern of
`_extract_css_classes`.  Fuelled by the input length; every step consumes
at least one character. -/
def cssClassScan : Nat → List Char → List String
  | 0, _ => []
  | _ + 1, [] => []
  | fuel + 1, '.' :: c :: rest =>
    if cssClassStart c then
      (⟨c :: rest.takeWhile cssClassChar⟩ : String) ::
        cssClassScan fuel (rest.dropWhile cssClassChar)
    else cssClassScan fuel (c :: rest)
  | fuel + 1, _ :: rest => cssClassScan fuel rest

/-- `HTMLChunker._extract_css_classes` (the `list(set(...))` dedup is
modelled as first-occurrence dedup). -/
def extract_css_classes (css_content : String) : List String :=
  if css_content == "" then []
  else (cssClassScan css_content.data.length css_content.data).dedup

/-- `HTMLChunker._find_relevant_css_selectors`. -/
def find_relevant_css_selectors (chunk_content : String)
    (css_classes : List String) : List String :=
  (css_classes.filter (fun c =>
    pyIn ("class=\"" ++ c ++ "\"") chunk_content ||
    pyIn ("class=" ++ "'" ++ c ++ "'") chunk_content)).map (fun c => "." ++ c)

/-- `HTMLChunker.split_html`. -/
def split_html (maxSize : Nat) (html_content css_content : String) :
    List HTMLChunk :=
  let soup := parseHtml html_content
  let head_chunk := create_head_chunk soup
  let body_chunks := split_body_content maxSize soup
  let css_classes := extract_css_classes css_content
  let chunks := head_chunk :: body_chunks
  chunks.map (fun chunk =>
    { chunk with
        css_selectors := find_relevant_css_selectors chunk.content css_classes })

/-- `HTMLChunker.reconstruct_html`. -/
def reconstruct_html (processed_chunks : List ChunkProcessingResult)
    (original_doctype : String) : String :=
  if processed_chunks.isEmpty then ""
  else
    let head_chunk := processed_chunks.find? (fun c => c.chunk_id == "head")
    let body_chunks := processed_chunks.filter (fun c => c.chunk_id != "head")
    let head_content :=
      match head_chunk with
      | some c => c.processed_content
      | none => "<head></head>"
    let body_content :=
      String.join (body_chunks.map (fun c => c.processed_content))
    let doctype := if original_doctype == "" then "<!DOCTYPE html>" else original_doctype
    doctype ++ "\n<html>\n" ++ head_content ++ "\n<body>\n" ++ body_content ++
      "\n</body>\n</html>"

/-! ### Chunk processor (langgraph_agents/chunk_processor_node.py)

The LLM chain is the external filler capability: an oracle from the
rendered prompt inputs to either output text or a raised exception.  Each
invocation is also recorded in a log tagged with the id of the chunk it
was issued for, so that "the filler is never invoked for this chunk" is a
statement about the log. -/

/-- The inputs `chain.ainvoke` receives: the system message of the prompt
template plus the per-chunk template variables. -/
structure LLMCall where
  system_message : String
  chunk_content : String
  brand_name : String
  products : String
  images : String
  contact : String
  deriving Repr, DecidableEq

/-- The filler capability: may fail with an exception message. -/
def Filler : Type := LLMCall → Except String String

/-- The constant system message of
`_create_chunk_modification_prompt_template`. -/
def base_system_message : String :=
  "Modify this HTML chunk by replacing placeholder content with real data. " ++
  "CRITICAL RULES: 1. Preserve the exact HTML structure and all attributes " ++
  "2. Only replace text content and image URLs (src attributes) " ++
  "3. Keep all CSS classes and IDs unchanged " ++
  "4. Return only the modified HTML chunk, nothing else."

/-- The retry-specific reinforcement block of
`_create_enhanced_chunk_prompt_template`. -/
def strict_instructions (spec : WhitePageSpec) (retry_attempt : Nat) : String :=
  if retry_attempt ≥ 2 then
    "CRITICAL MANDATORY REPLACEMENTS - NO EXCEPTIONS: " ++
    "1. Find and replace ANY brand name with: " ++ spec.brand_name ++ " " ++
    "2. Find and replace ANY email with: " ++ spec.contact_email ++ " " ++
    "3. Find and replace ANY phone with: " ++ spec.contact_phone ++ " " ++
    "4. Find and replace ANY address with: " ++ spec.address ++ " " ++
    "THIS IS ATTEMPT " ++ toString retry_attempt ++
    " - PREVIOUS ATTEMPTS FAILED DUE TO INCORRECT CONTENT."
  else
    "IMPORTANT: This is retry attempt " ++ toString retry_attempt ++
    ". Previous attempt failed validation. Focus on using EXACT values from spec: " ++
    "Brand: " ++ spec.brand_name ++ " Email: " ++ spec.contact_email ++
    " Phone: " ++ spec.contact_phone ++ " Address: " ++ spec.address

/-- System message assembled by `_create_enhanced_chunk_prompt_template`. -/
def enhanced_system_message (enhanced_content : GeneratedContent)
    (spec : WhitePageSpec) (retry_attempt : Nat) : String :=
  base_system_message ++ "\n\n" ++ strict_instructions spec retry_attempt ++
    "\n\n" ++ String.intercalate "\n" enhanced_content.enhancement_instructions

/-- The template variables passed to `chain.ainvoke` for a chunk. -/
def chunk_modification_call (system_message : String) (chunk : HTMLChunk)
    (content : GeneratedContent) (spec : WhitePageSpec) : LLMCall :=
  { system_message := system_message
    chunk_content := chunk.content
    brand_name := spec.brand_name
    products := content.items
    images := content.images
    contact := content.contact_info }

/-- `ChunkProcessor._extract_modified_content`. -/
def extract_modified_content (llm_output fallback_content : String) : String :=
  let cleaned_output := pyStrip llm_output
  if listPfx ['<'] cleaned_output.data &&
      listPfx ['>'] cleaned_output.data.reverse then
    cleaned_output
  else fallback_content

/-- `ChunkProcessor._modify_head_chunk`: parse the chunk, retitle the first
`<title>`, rewrite the first `<meta name="description">`, serialize. -/
def modify_head_chunk (chunk : HTMLChunk) (spec : WhitePageSpec) : String :=
  let new_title :=
    spec.brand_name ++ " - " ++ (spec.business_description.take 50) ++ "..."
  let soup := parseHtml chunk.content
  let soup1 := setFirstString (named "title") new_title soup
  let soup2 :=
    setFirstAttr
      (fun n =>
        match n with
        | .elem nm attrs _ =>
          nm == "meta" && (getAttr attrs "name").getD "" == "description"
        | .text _ => false)
      "content" spec.business_description soup1
  str_soup soup2

/-- Return shape of `ChunkProcessor._validate_chunk`. -/
structure ProcessorValidation where
  score : ℚ
  errors : List String
  warnings : List String
  deriving Repr, DecidableEq

/-- `ChunkProcessor._validate_chunk`: emptiness, shrinkage and
parseability checks on the filled chunk. -/
def validate_chunk (processed_content : String) (original_chunk : HTMLChunk) :
    ProcessorValidation :=
  let e1 : List String :=
    if pyStrip processed_content == "" then ["Processed content is empty"] else []
  let score1 : ℚ := if pyStrip processed_content == "" then 0 else 1
  let w1 : List String :=
    if (processed_content.length : ℚ) <
        (original_chunk.content.length : ℚ) * (1/2) then
      ["Significant content reduction detected"]
    else []
  let score2 :=
    if (processed_content.length : ℚ) <
        (original_chunk.content.length : ℚ) * (1/2) then
      score1 * (8/10)
    else score1
  let soup := parseHtml processed_content
  let e2 : List String :=
    if (findElemL isElem soup).isNone then
      ["Invalid HTML structure (no tags found)"]
    else []
  let score3 := if (findElemL isElem soup).isNone then 0 else score2
  { score := score3, errors := e1 ++ e2, warnings := w1 }

/-- `ChunkProcessor._create_unmodified_result`. -/
def create_unmodified_result (chunk : HTMLChunk) : ChunkProcessingResult :=
  { chunk_id := chunk.id
    processed_content := chunk.content
    validation_score := 1
    errors := []
    warnings := ["Chunk marked as non-modifiable"] }

/-- `ChunkProcessor._create_error_result`. -/
def create_error_result (chunk : HTMLChunk) (error_msg : String) :
    ChunkProcessingResult :=
  { chunk_id := chunk.id
    processed_content := chunk.content
    validation_score := 0
    errors := [error_msg]
    warnings := [] }

/-- `ChunkProcessor.process_chunk`.  Returns the result together with the
log of filler invocations made on behalf of this chunk. -/
def process_chunk (fill : Filler) (chunk : HTMLChunk)
    (generated_content : GeneratedContent) (spec : WhitePageSpec) :
    ChunkProcessingResult × List (String × LLMCall) :=
  if !chunk.metadata.modifiable then
    ({ chunk_id := chunk.id
       processed_content := chunk.content
       validation_score := 1
       errors := []
       warnings := ["Chunk marked as non-modifiable"] }, [])
  else if chunk.chunk_type == "head" then
    -- `_modify_chunk_content` short-circuits head chunks without an LLM call
    let processed_content := modify_head_chunk chunk spec
    let validation := validate_chunk processed_content chunk
    ({ chunk_id := chunk.id
       processed_content := processed_content
       validation_score := validation.score
       errors := validation.errors
       warnings := validation.warnings }, [])
  else
    let call := chunk_modification_call base_system_message chunk
      generated_content spec
    match fill call with
    | .ok llm_output =>
      let processed_content := extract_modified_content llm_output chunk.content
      let validation := validate_chunk processed_content chunk
      ({ chunk_id := chunk.id
         processed_content := processed_content
         validation_score := validation.score
         errors := validation.errors
         warnings := validation.warnings }, [(chunk.id, call)])
    | .error e => (create_error_result chunk e, [(chunk.id, call)])

/-- `ChunkProcessor.process_chunks_parallel`: `asyncio.gather` preserves
submission order, so the result sequence follows the input chunk order; in
this embedding every task resolves to a result, so the
`isinstance(result, Exception)` conversion branch of the collection loop
is the identity. -/
def process_chunks_parallel (fill : Filler) (chunks : List HTMLChunk)
    (generated_content : GeneratedContent) (spec : WhitePageSpec) :
    List ChunkProcessingResult × List (String × LLMCall) :=
  let gathered := chunks.map (fun c => process_chunk fill c generated_content spec)
  (gathered.map (fun r => r.1), (gathered.map (fun r => r.2)).flatten)

/-- `ChunkProcessor.process_chunk_with_enhanced_instructions`. -/
def process_chunk_with_enhanced_instructions (fill : Filler) (chunk : HTMLChunk)
    (enhanced_content : GeneratedContent) (spec : WhitePageSpec)
    (retry_attempt : Nat) : ChunkProcessingResult × List (String × LLMCall) :=
  if !chunk.metadata.modifiable then
    (create_unmodified_result chunk, [])
  else
    let call := chunk_modification_call
      (enhanced_system_message enhanced_content spec retry_attempt) chunk
      enhanced_content spec
    match fill call with
    | .ok llm_output =>
      let processed_content := extract_modified_content llm_output chunk.content
      let validation := validate_chunk processed_content chunk
      ({ chunk_id := chunk.id
         processed_content := processed_content
         validation_score := validation.score
         errors := validation.errors
         warnings := validation.warnings }, [(chunk.id, call)])
    | .error e => (create_error_result chunk e, [(chunk.id, call)])

/-! ### Selective retry coordinator (selective_chunk_processor_node.py) -/

/-- `SelectiveChunkProcessor._identify_failed_chunk_ids` (the set is
modelled as the list of ids; only membership and emptiness are consumed). -/
def identify_failed_chunk_ids (validation_results : List ChunkValidationResult) :
    List String :=
  (validation_results.filter (fun v => v.needs_regeneration)).map
    (fun v => v.chunk_id)

/-- `SelectiveChunkProcessor._enhance_content_for_retry`. -/
def enhance_content_for_retry (generated_content : GeneratedContent)
    (spec : WhitePageSpec) (retry_attempt : Nat) : GeneratedContent :=
  if retry_attempt == 1 then
    { generated_content with
        enhancement_instructions :=
          ["CRITICAL: Use exact brand name " ++ spec.brand_name ++
             " - no variations allowed",
           "CRITICAL: Use exact contact email " ++ spec.contact_email,
           "CRITICAL: Use exact phone number " ++ spec.contact_phone,
           "CRITICAL: Use exact address " ++ spec.address] }
  else if retry_attempt == 2 then
    { generated_content with
        enhancement_instructions :=
          ["MANDATORY REPLACEMENT: Replace ANY occurrence of brand names with " ++
             spec.brand_name,
           "MANDATORY REPLACEMENT: Replace ALL email addresses with " ++
             spec.contact_email,
           "MANDATORY REPLACEMENT: Replace ALL phone numbers with " ++
             spec.contact_phone,
           "MANDATORY REPLACEMENT: Replace ALL addresses with " ++ spec.address,
           "SEARCH AND REPLACE: Look for common generic terms and replace with specific content"] }
  else generated_content

/-- `SelectiveChunkProcessor._retry_failed_chunks`: sequential enhanced
reprocessing of the failed chunks. -/
def retry_failed_chunks (fill : Filler) (failed_chunks : List HTMLChunk)
    (generated_content : GeneratedContent) (spec : WhitePageSpec)
    (retry_attempt : Nat) :
    List ChunkProcessingResult × List (String × LLMCall) :=
  let enhanced_content := enhance_content_for_retry generated_content spec
    retry_attempt
  let processed := failed_chunks.map (fun c =>
    process_chunk_with_enhanced_instructions fill c enhanced_content spec
      retry_attempt)
  (processed.map (fun r => r.1), (processed.map (fun r => r.2)).flatten)

/-- The dictionary `{result.chunk_id: result for result in retry_results}`
of `_merge_chunk_results`, looked up at one key: a comprehension keeps the
last entry per key. -/
def retry_dict_find (retry_results : List ChunkProcessingResult) (id : String) :
    Option ChunkProcessingResult :=
  retry_results.foldl
    (fun acc r => if r.chunk_id == id then some r else acc) none

/-- `SelectiveChunkProcessor._merge_chunk_results`. -/
def merge_chunk_results
    (original_results retry_results : List ChunkProcessingResult) :
    List ChunkProcessingResult :=
  original_results.map (fun original =>
    match retry_dict_find retry_results original.chunk_id with
    | some r => r
    | none => original)

/-- Outcome of the coordinator, instrumented with the number of
validation passes, the number of retry rounds, and the filler-invocation
log. -/
structure RetryTrace where
  results : List ChunkProcessingResult
  validation_passes : Nat
  retry_rounds : Nat
  llm_log : List (String × LLMCall)
  deriving Repr

/-- The `for attempt in range(max_retry_attempts)` loop of
`process_chunks_with_selective_retry`: validate, stop when nothing needs
regeneration, otherwise retry the failed chunks and merge by id. -/
def selective_retry_loop (fill : Filler) (chunks : List HTMLChunk)
    (generated_content : GeneratedContent) (spec : WhitePageSpec) :
    Nat → Nat → List ChunkProcessingResult → RetryTrace
  | 0, _, results =>
    { results := results, validation_passes := 0, retry_rounds := 0, llm_log := [] }
  | fuel + 1, attempt, results =>
    let validation_results := validate_chunk_results results spec
    let failed_chunk_ids := identify_failed_chunk_ids validation_results
    if failed_chunk_ids.isEmpty then
      { results := results, validation_passes := 1, retry_rounds := 0, llm_log := [] }
    else
      let failed_chunks := chunks.filter (fun c => failed_chunk_ids.contains c.id)
      let retry := retry_failed_chunks fill failed_chunks generated_content spec
        (attempt + 1)
      let merged := merge_chunk_results results retry.1
      let rest := selective_retry_loop fill chunks generated_content spec fuel
        (attempt + 1) merged
      { results := rest.results
        validation_passes := rest.validation_passes + 1
        retry_rounds := rest.retry_rounds + 1
        llm_log := retry.2 ++ rest.llm_log }

/-- `SelectiveChunkProcessor.process_chunks_with_selective_retry`
(`max_retry_attempts` defaults to 2 at the call sites). -/
def process_chunks_with_selective_retry (fill : Filler)
    (chunks : List HTMLChunk) (generated_content : GeneratedContent)
    (spec : WhitePageSpec) (max_retry_attempts : Nat) : RetryTrace :=
  let initial := process_chunks_parallel fill chunks generated_content spec
  let trace := selective_retry_loop fill chunks generated_content spec
    max_retry_attempts 0 initial.1
  { trace with llm_log := initial.2 ++ trace.llm_log }

/-! ### Validation issue classifier and targeted fixers
(langgraph_agents/targeted_fixing_node.py) -/

/-- `SeverityLevel`. -/
inductive SeverityLevel where
  | critical
  | major
  | minor
  deriving Repr, DecidableEq

/-- `SeverityLevel.value`. -/
def SeverityLevel.value : SeverityLevel → String
  | .critical => "critical"
  | .major => "major"
  | .minor => "minor"

/-- `IssueType`. -/
inductive IssueType where
  | brand_mismatch
  | contact_mismatch
  | address_mismatch
  | product_mismatch
  | language_mismatch
  deriving Repr, DecidableEq

/-- `IssueType.value`. -/
def IssueType.value : IssueType → String
  | .brand_mismatch => "brand_mismatch"
  | .contact_mismatch => "contact_mismatch"
  | .address_mismatch => "address_mismatch"
  | .product_mismatch => "product_mismatch"
  | .language_mismatch => "language_mismatch"

/-- `ValidationIssue` dataclass (the `replacement_values` dictionary as an
association list). -/
structure ValidationIssue where
  issue_type : IssueType
  severity : SeverityLevel
  description : String
  suggested_fix : String
  affected_selectors : List String
  search_patterns : List String
  replacement_values : List (String × String)
  deriving Repr, DecidableEq

/-- `ValidationAnalyzer._GENERIC_BRANDS` (a frozenset in the source; its
iteration order is unspecified there, listed here in written order). -/
def GENERIC_BRANDS : List String :=
  ["Lumina Jewelry", "Stellar Gems", "Golden Touch", "Diamond Dreams",
   "Company Name"]

/-- `ValidationAnalyzer._BRAND_SELECTORS`. -/
def BRAND_SELECTORS : List String :=
  ["h1", "h2", "h3", ".brand-name", ".company-name", "title", ".logo-text"]

/-- `ValidationAnalyzer._CONTACT_SELECTORS`. -/
def CONTACT_SELECTORS : List String :=
  [".contact", ".email", ".phone", ".contact-info",
   "a[href^=\x27mailto:\x27]", "a[href^=\x27tel:\x27]"]

/-- `ValidationAnalyzer._PRODUCT_SELECTORS`. -/
def PRODUCT_SELECTORS : List String :=
  [".products", ".items", ".services", ".catalog", ".product-list"]

/-- `ValidationAnalyzer._create_brand_issue`. -/
def create_brand_issue (spec : WhitePageSpec) (error html_content : String) :
    ValidationIssue :=
  let found_brands := GENERIC_BRANDS.filter (fun brand =>
    pyIn (strLower brand) (strLower html_content))
  { issue_type := .brand_mismatch
    severity := .critical
    description := error
    suggested_fix := "Replace generic brand names with " ++ spec.brand_name
    affected_selectors := BRAND_SELECTORS
    search_patterns := found_brands
    replacement_values := found_brands.map (fun brand => (brand, spec.brand_name)) }

/-- `ValidationAnalyzer._create_contact_issue`. -/
def create_contact_issue (spec : WhitePageSpec) (error _html_content : String) :
    ValidationIssue :=
  { issue_type := .contact_mismatch
    severity := .major
    description := error
    suggested_fix := "Update contact information to match specification"
    affected_selectors := CONTACT_SELECTORS
    search_patterns := ["[\\w\\.-]+@[\\w\\.-]+\\.\\w+", "\\+?[\\d\\s\\-\\(\\)]+"]
    replacement_values :=
      [("email", spec.contact_email), ("phone", spec.contact_phone)] }

/-- `ValidationAnalyzer._create_address_issue`. -/
def create_address_issue (spec : WhitePageSpec) (error _html_content : String) :
    ValidationIssue :=
  { issue_type := .address_mismatch
    severity := .major
    description := error
    suggested_fix := "Update address to match specification"
    affected_selectors := [".address", ".location", ".contact-address"]
    search_patterns := ["address", "location"]
    replacement_values := [("address", spec.address)] }

/-- `ValidationAnalyzer._create_product_issue`. -/
def create_product_issue (spec : WhitePageSpec) (error _html_content : String) :
    ValidationIssue :=
  let products_text :=
    if spec.products.isEmpty then ""
    else String.intercalate ", " (spec.products.take 3)
  { issue_type := .product_mismatch
    severity := .minor
    description := error
    suggested_fix := "Update product listings to include specified products"
    affected_selectors := PRODUCT_SELECTORS
    search_patterns := ["generic product", "sample item"]
    replacement_values := [("products", products_text)] }

/-- `ValidationAnalyzer._create_language_issue`. -/
def create_language_issue (_spec : WhitePageSpec) (error _html_content : String) :
    ValidationIssue :=
  { issue_type := .language_mismatch
    severity := .major
    description := error
    suggested_fix := "Translate content to Russian"
    affected_selectors := ["p", "span", ".description", ".content", "li"]
    search_patterns := ["English text patterns"]
    replacement_values := [] }

/-- `ValidationAnalyzer._error_handlers`, an insertion-ordered keyword →
handler table. -/
def error_handlers (spec : WhitePageSpec) :
    List (String × (String → String → ValidationIssue)) :=
  [("brand", create_brand_issue spec),
   ("contact", create_contact_issue spec),
   ("email", create_contact_issue spec),
   ("phone", create_contact_issue spec),
   ("product", create_product_issue spec),
   ("address", create_address_issue spec),
   ("language", create_language_issue spec),
   ("russian", create_language_issue spec),
   ("english", create_language_issue spec)]

/-- `ValidationAnalyzer._categorize_and_create_issue`: first matching
keyword wins, case-insensitively; unmatched errors yield no issue. -/
def categorize_and_create_issue (spec : WhitePageSpec)
    (error html_content : String) : Option ValidationIssue :=
  let error_lower := strLower error
  match (error_handlers spec).find? (fun kh => pyIn kh.1 error_lower) with
  | some kh => some (kh.2 error html_content)
  | none => none

/-- `ValidationAnalyzer.analyze_validation_errors`. -/
def analyze_validation_errors (spec : WhitePageSpec)
    (validation_errors : List String) (html_content : String) :
    List ValidationIssue :=
  validation_errors.filterMap (fun error =>
    categorize_and_create_issue spec error html_content)

/-- `re.sub(re.escape(pat), repl, s, flags=re.IGNORECASE)`: literal
case-insensitive replacement, non-overlapping, left to right (an empty
pattern matches at every position). -/
def isub (pat repl : List Char) : Nat → List Char → List Char
  | 0, s => s
  | _ + 1, [] => if pat.isEmpty then repl else []
  | fuel + 1, c :: cs =>
    if pat.isEmpty then repl ++ c :: isub pat repl fuel cs
    else if listPfx (lowerChars pat) (lowerChars (c :: cs)) then
      repl ++ isub pat repl fuel ((c :: cs).drop pat.length)
    else c :: isub pat repl fuel cs

/-- String-level wrapper of `isub` with sufficient fuel. -/
def isubStr (pat repl s : String) : String :=
  ⟨isub pat.data repl.data (s.data.length + 1) s.data⟩

/-- `element.attrs` of an element node. -/
def elemAttrs : Node → List (String × String)
  | .text _ => []
  | .elem _ a _ => a

/-- `BrandFixer.fix`: a document-wide case-insensitive substitution of
every found pattern, then a selector-guided second pass rewriting elements
whose string still mentions a pattern. -/
def brand_fix (spec : WhitePageSpec) (issue : ValidationIssue)
    (html_content : String) : String :=
  let fixed_html := issue.search_patterns.foldl
    (fun h old_brand =>
      if pyIn old_brand h then isubStr old_brand spec.brand_name h
      else h)
    html_content
  let soup := parseHtml fixed_html
  let soup2 := issue.affected_selectors.foldl
    (fun ns sel =>
      rewritePassL
        (fun e =>
          matchesSelector sel e &&
          ((nodeString e).getD "" != "") &&
          issue.search_patterns.any (fun pat =>
            pyIn (strLower pat) (strLower ((nodeString e).getD ""))))
        (fun e => elemAttrs e)
        (fun _ => spec.brand_name)
        ns)
    soup
  str_soup soup2

/-- Tags searched by `HTMLProcessor.find_elements_by_pattern`. -/
def PATTERN_TAGS : List String := ["a", "span", "div", "p"]

/-- Character class `[\w]` of the contact regexes (ASCII word
characters). -/
def wordChar (c : Char) : Bool := c.isAlphanum || c == '_'

/-- Character class `[\w\.-]` of the email regex. -/
def emailChar (c : Char) : Bool := wordChar c || c == '.' || c == '-'

/-- Is there an adjacent pair `.`‑followed‑by‑word‑character? -/
def dotThenWord : List Char → Bool
  | [] => false
  | ['.'] => false
  | '.' :: c :: rest => wordChar c || dotThenWord (c :: rest)
  | _ :: rest => dotThenWord rest

/-- The part of the email regex after `@`: a nonempty `[\w\.-]` run
containing, past its first character, a dot followed by a word character. -/
def emailTail (afterAt : List Char) : Bool :=
  match afterAt.takeWhile emailChar with
  | [] => false
  | _ :: run => dotThenWord run

/-- `re.search` of `ContactFixer._EMAIL_PATTERN`
(`[\w\.-]+@[\w\.-]+\.\w+`). -/
def emailSearch : List Char → Bool
  | [] => false
  | c :: rest =>
    (if emailChar c then
      match (c :: rest).dropWhile emailChar with
      | '@' :: tl => emailTail tl
      | _ => false
     else false) ||
    emailSearch rest

/-- Character class `[\d\s\-\(\)]` of the phone regex. -/
def phoneChar (c : Char) : Bool :=
  c.isDigit || c.isWhitespace || c == '-' || c == '(' || c == ')'

/-- `re.search` of `ContactFixer._PHONE_PATTERN`
(`\+?[\d\s\-\(\)]{10,}`): some run of at least ten phone characters. -/
def phoneSearch : List Char → Bool
  | [] => false
  | c :: rest =>
    (phoneChar c && 10 ≤ ((c :: rest).takeWhile phoneChar).length) ||
    phoneSearch rest

/-- `ContactFixer.fix`: `_fix_email_elements` then
`_fix_phone_elements`. -/
def contact_fix (spec : WhitePageSpec) (_issue : ValidationIssue)
    (html_content : String) : String :=
  let soup := parseHtml html_content
  let soup1 := rewritePassL
    (fun e =>
      let s := (nodeString e).getD ""
      PATTERN_TAGS.contains ((nodeName e).getD "") &&
      (nodeString e).isSome && emailSearch s.data &&
      s != "" && pyIn "@" s && !(pyIn "example.com" s))
    (fun e =>
      if (nodeName e).getD "" == "a" then
        setAttr (elemAttrs e) "href" ("mailto:" ++ spec.contact_email)
      else elemAttrs e)
    (fun _ => spec.contact_email)
    soup
  let soup2 := rewritePassL
    (fun e =>
      let s := (nodeString e).getD ""
      PATTERN_TAGS.contains ((nodeName e).getD "") &&
      (nodeString e).isSome && phoneSearch s.data &&
      s != "" && s.data.any Char.isDigit)
    (fun e =>
      if (nodeName e).getD "" == "a" then
        setAttr (elemAttrs e) "href" ("tel:" ++ spec.contact_phone)
      else elemAttrs e)
    (fun _ => spec.contact_phone)
    soup1
  str_soup soup2

/-- `AddressFixer.fix`. -/
def address_fix (spec : WhitePageSpec) (issue : ValidationIssue)
    (html_content : String) : String :=
  let soup := parseHtml html_content
  let soup2 := issue.affected_selectors.foldl
    (fun ns sel =>
      rewritePassL
        (fun e => matchesSelector sel e && getTextN e != "")
        (fun e => elemAttrs e)
        (fun _ => spec.address)
        ns)
    soup
  str_soup soup2

mutual

/-- Count `li` descendants, including the node itself when it is one. -/
def countLisN : Node → Nat
  | .text _ => 0
  | .elem n _ c => (if n == "li" then 1 else 0) + countLisL c

/-- `countLisN` over a node list. -/
def countLisL : List Node → Nat
  | [] => 0
  | n :: ns => countLisN n + countLisL ns

end

mutual

/-- The item-overwriting loop of `_update_product_list` over the
precomputed document-order `li` list: the `li` with preorder index `i`
below `bound` gets `products[i]` via `update_element_text`; descendant
`li` nodes of a rewritten item were detached by the rewrite, but still
consumed their precomputed indices. -/
def updateLisN (bound : Nat) (products : List String) :
    Node → Nat → Node × Nat
  | .text s, i => (.text s, i)
  | .elem n a c, i =>
    if n == "li" then
      if i < bound then
        if (nodeString (.elem n a c)).getD "" != "" ||
            getTextN (.elem n a c) != "" then
          (.elem n a [.text (products.getD i "")], i + 1 + countLisL c)
        else
          let r := updateLisL bound products c (i + 1)
          (.elem n a r.1, r.2)
      else
        let r := updateLisL bound products c (i + 1)
        (.elem n a r.1, r.2)
    else
      let r := updateLisL bound products c i
      (.elem n a r.1, r.2)

/-- `updateLisN` over a node list. -/
def updateLisL (bound : Nat) (products : List String) :
    List Node → Nat → List Node × Nat
  | [], i => ([], i)
  | n :: ns, i =>
    let r := updateLisN bound products n i
    let rs := updateLisL bound products ns r.2
    (r.1 :: rs.1, rs.2)

end

mutual

/-- Replace the first matching descendant (document order) using `f`. -/
def mapFirstN (p : Node → Bool) (f : Node → Node) : Node → Node × Bool
  | .text s => (.text s, false)
  | .elem n a c =>
    if p (.elem n a c) then (f (.elem n a c), true)
    else
      let r := mapFirstL p f c
      (.elem n a r.1, r.2)

/-- `mapFirstN` over a node list. -/
def mapFirstL (p : Node → Bool) (f : Node → Node) :
    List Node → List Node × Bool
  | [] => ([], false)
  | n :: ns =>
    let r := mapFirstN p f n
    if r.2 then (r.1 :: ns, true)
    else
      let rs := mapFirstL p f ns
      (r.1 :: rs.1, rs.2)

end

/-- Children of an element node. -/
def elemChildren : Node → List Node
  | .text _ => []
  | .elem _ _ c => c

/-- Overwrite item texts of a found list container (the `≥ 3` items branch
of `_update_product_list`). -/
def liUpdate (products : List String) (product_list : Node) : Node :=
  let existing_count := countLisL (elemChildren product_list)
  if 3 ≤ existing_count then
    match product_list with
    | .elem n a c =>
      .elem n a
        (updateLisL (products.take existing_count).length products c 0).1
    | .text s => .text s
  else product_list

/-- `ProductFixer._update_product_list` on one section:
`section.find("ul") or section.find("ol")`, then overwrite items. -/
def update_product_list (products : List String) (sec : Node) : Node :=
  match sec with
  | .text s => .text s
  | .elem n a c =>
    match findElemL (named "ul") c with
    | some _ => .elem n a (mapFirstL (named "ul") (liUpdate products) c).1
    | none =>
      match findElemL (named "ol") c with
      | some _ => .elem n a (mapFirstL (named "ol") (liUpdate products) c).1
      | none => .elem n a c

mutual

/-- Depth of a node (text nodes count zero). -/
def depthN : Node → Nat
  | .text _ => 0
  | .elem _ _ c => depthL c + 1

/-- Depth of a node list. -/
def depthL : List Node → Nat
  | [] => 0
  | n :: ns => max (depthN n) (depthL ns)

end

mutual

/-- Top-down pass applying `_update_product_list` to every element
matching the section predicate, descending into the (possibly rewritten)
children.  The rewrite never increases tree depth, so fuel taken as the
depth of the input tree never truncates the traversal. -/
def productPassN (p : Node → Bool) (products : List String) :
    Nat → Node → Node
  | _, .text s => .text s
  | 0, .elem n a c => .elem n a c
  | fuel + 1, .elem n a c =>
    let e := if p (.elem n a c) then update_product_list products (.elem n a c)
      else .elem n a c
    match e with
    | .elem n2 a2 c2 => .elem n2 a2 (productPassL p products fuel c2)
    | .text s => .text s

/-- `productPassN` over a node list. -/
def productPassL (p : Node → Bool) (products : List String) :
    Nat → List Node → List Node
  | _, [] => []
  | fuel, n :: ns =>
    productPassN p products fuel n :: productPassL p products fuel ns

end

/-- `ProductFixer.fix`. -/
def product_fix (spec : WhitePageSpec) (issue : ValidationIssue)
    (html_content : String) : String :=
  if spec.products.isEmpty then html_content
  else
    let soup := parseHtml html_content
    let joined := String.intercalate ", " issue.affected_selectors
    let soup2 := productPassL (matchesSelector joined) spec.products
      (depthL soup) soup
    str_soup soup2

/-- The delegated translation capability of `LLMFixer`. -/
def Translator : Type := String → Except String String

/-- `LLMFixer.fix` / `_fix_language_issues`: delegate the first 8000
characters to the capability; accept only nonempty output longer than 1000
characters after stripping, otherwise (or on error) keep the document. -/
def llm_fix (translate : Translator) (_spec : WhitePageSpec)
    (issue : ValidationIssue) (html_content : String) : String :=
  if issue.issue_type == IssueType.language_mismatch then
    match translate (html_content.take 8000) with
    | .ok result =>
      if result != "" && 1000 < (pyStrip result).length then pyStrip result
      else html_content
    | .error _ => html_content
  else html_content

/-- Strict key order used by `sorted(issues, key=...)`:
lexicographic on the `(severity.value, issue_type.value)` string pair. -/
def issueKeyLt (a b : ValidationIssue) : Bool :=
  if a.severity.value < b.severity.value then true
  else if a.severity.value == b.severity.value then
    decide (a.issue_type.value < b.issue_type.value)
  else false

/-- Stable insertion into a sorted issue list (earlier-listed issues stay
before issues with an equal key). -/
def insertSortedIssue (x : ValidationIssue) :
    List ValidationIssue → List ValidationIssue
  | [] => [x]
  | y :: ys =>
    if issueKeyLt y x then y :: insertSortedIssue x ys else x :: y :: ys

/-- Python's stable `sorted` on the severity/issue-type key. -/
def sorted_issues (issues : List ValidationIssue) : List ValidationIssue :=
  issues.foldr insertSortedIssue []

/-- `FixerFactory.get_fixer` + `fixer.fix`: the strategy dispatch. -/
def get_fixer_apply (translate : Translator) (spec : WhitePageSpec)
    (issue : ValidationIssue) (html : String) : String :=
  match issue.issue_type with
  | .brand_mismatch => brand_fix spec issue html
  | .contact_mismatch => contact_fix spec issue html
  | .address_mismatch => address_fix spec issue html
  | .product_mismatch => product_fix spec issue html
  | .language_mismatch => llm_fix translate spec issue html

/-- `TargetedHTMLFixer.apply_targeted_fixes`: issues sorted by
`(severity.value, issue_type.value)`, each fixer applied in turn (the
fixers of this embedding are total, so the per-issue exception guard is
the identity). -/
def apply_targeted_fixes (translate : Translator) (html_content : String)
    (issues : List ValidationIssue) (spec : WhitePageSpec) : String :=
  (sorted_issues issues).foldl
    (fun fixed_html issue => get_fixer_apply translate spec issue fixed_html)
    html_content

/-! ### Bounded-concurrency semaphore model

`process_chunks_parallel` guards every filler call with
`asyncio.Semaphore(3)`.  The labelled transition system below models an
arbitrary interleaving of the per-chunk tasks: a pending task may acquire
the semaphore only when its counter is positive (entering `async with`),
and a running task releases it when the call finishes.  Any scheduler
behaviour is a `Reachable` state. -/

/-- Scheduling phase of one chunk task. -/
inductive TaskPhase where
  | pending
  | running
  | finished
  deriving Repr, DecidableEq

/-- Scheduler state: semaphore counter and per-task phases. -/
structure SemState where
  sem : Nat
  tasks : List TaskPhase
  deriving Repr, DecidableEq

/-- Interleaving steps of the semaphore-guarded task pool. -/
inductive SemStep : SemState → SemState → Prop
  | acquire (i : Nat) (s : SemState) :
      s.tasks[i]? = some .pending → 0 < s.sem →
      SemStep s { sem := s.sem - 1, tasks := s.tasks.set i .running }
  | release (i : Nat) (s : SemState) :
      s.tasks[i]? = some .running →
      SemStep s { sem := s.sem + 1, tasks := s.tasks.set i .finished }

/-- Initial state: counter at the configured width, every queued chunk
pending. -/
def semInit (width n : Nat) : SemState :=
  { sem := width, tasks := List.replicate n .pending }

/-- States reachable from some initial state of the given width. -/
inductive SemReachable (width : Nat) : SemState → Prop
  | init (n : Nat) : SemReachable width (semInit width n)
  | step {s t : SemState} : SemReachable width s → SemStep s t →
      SemReachable width t

/-- Number of concurrently in-flight filler calls. -/
def runningCount (s : SemState) : Nat :=
  (s.tasks.filter (fun t => t == .running)).length

/-! ### Concrete specimens used by witnesses and counterexamples -/

/-- A concrete specification (brand `Zolto`). -/
def spec_jewelry : WhitePageSpec :=
  { page_type := "jewelry"
    brand_name := "Zolto"
    business_description := "shop"
    contact_email := "info@brand.com"
    contact_phone := "+7 (495) 111-22-33"
    address := "Main St 1"
    page_name := "page"
    products := []
    geo_location := "USA" }

/-- A chunk result whose content carries a placeholder email. -/
def result_placeholder_email : ChunkProcessingResult :=
  { chunk_id := "c0"
    processed_content := "Contact: test@example.com"
    validation_score := 1
    errors := []
    warnings := [] }

/-- A chunk result whose content mentions jewelry without the brand. -/
def result_brandless : ChunkProcessingResult :=
  { chunk_id := "c1"
    processed_content := "jewelry"
    validation_score := 1
    errors := []
    warnings := [] }

/-- A specification whose brand name extends a generic placeholder brand. -/
def spec_lumina_shop : WhitePageSpec :=
  { spec_jewelry with brand_name := "Lumina Jewelry Shop" }

/-- A translation capability that always fails. -/
def translator_fail : Translator := fun _ => Except.error "unavailable"

/-- The brand issue the analyzer derives for the document
`"Lumina Jewelry"` under `spec_lumina_shop`. -/
def issue_lumina : ValidationIssue :=
  create_brand_issue spec_lumina_shop "Brand mismatch: found Lumina Jewelry"
    "Lumina Jewelry"

/-- A filler that always succeeds with a fixed fragment. -/
def filler_ok : Filler := fun _ => Except.ok "<div>filled</div>"

/-- A filler that always raises. -/
def filler_raise : Filler := fun _ => Except.error "boom"

/-- Concrete generated content. -/
def content0 : GeneratedContent :=
  { items := "[]", images := "[]", contact_info := "none",
    enhancement_instructions := [] }

/-- A non-modifiable `nav` chunk. -/
def chunk_nav : HTMLChunk :=
  { id := "section_0"
    content := "<nav>jewelry menu</nav>"
    chunk_type := "nav"
    dependencies := []
    css_selectors := []
    size := 23
    metadata :=
      { tag_name := "nav", classes := [], element_id := none,
        priority := "low", modifiable := false } }

/-- A scheduler state with 10 queued chunks, two of which hold the
semaphore. -/
def two_running_state : SemState :=
  { sem := 1
    tasks := ((List.replicate 10 TaskPhase.pending).set 0
      TaskPhase.running).set 1 TaskPhase.running }

/-- A modifiable `main` chunk. -/
def chunk_main : HTMLChunk :=
  { id := "section_1"
    content := "<main><p>Zolto welcome text body</p></main>"
    chunk_type := "main"
    dependencies := []
    css_selectors := []
    size := 43
    metadata :=
      { tag_name := "main", classes := [], element_id := none,
        priority := "high", modifiable := true } }

mutual

/-- Does `p` hold on every element node of the tree? -/
def allElemsN (p : Node → Bool) : Node → Bool
  | .text _ => true
  | .elem n a c => p (.elem n a c) && allElemsL p c

/-- `allElemsN` over a node list. -/
def allElemsL (p : Node → Bool) : List Node → Bool
  | [] => true
  | n :: ns => allElemsN p n && allElemsL p ns

end

/-- A document mentioning the generic brand `Lumina Jewelry` twice. -/
def c8_doc : String :=
  "<html><body><h1>Lumina Jewelry</h1><p>Welcome to the Lumina Jewelry store</p></body></html>"

/-- The brand issue the analyzer derives for `c8_doc` under
`spec_jewelry`. -/
def c8_issue : ValidationIssue :=
  create_brand_issue spec_jewelry "Brand mismatch: found Lumina Jewelry" c8_doc

/-- A concrete sub-chunk emitted by `split_html` at bound 20 on the
document `<body><main><p>aaaa</p><p>bbbb</p></main><aside>ok</aside></body>`:
the `main` element serializes to 35 characters, so it is split and the
first group wraps a single `<p>` child, exceeding the bound. -/
def c6_main_chunk : HTMLChunk :=
  { id := "section_0_0"
    content := "<main><p>aaaa</p></main>"
    chunk_type := "main_part"
    dependencies := []
    css_selectors := []
    size := 24
    metadata :=
      { tag_name := "main", classes := [], element_id := none,
        priority := "high", modifiable := true } }

/-! ## Theorems

Helper lemmas first, then one theorem per claim (with witnesses for
theorems carrying hypotheses).  The four core rational operations are made
semireducible locally so that concrete score arithmetic evaluates inside
`decide`. -/

attribute [local semireducible] Rat.mul Rat.inv Rat.add Rat.sub

/-! ### Retry-loop bounds (C1) -/

lemma selective_retry_loop_bounds (fill : Filler) (chunks : List HTMLChunk)
    (generated_content : GeneratedContent) (spec : WhitePageSpec) :
    ∀ (fuel attempt : Nat) (results : List ChunkProcessingResult),
      (selective_retry_loop fill chunks generated_content spec fuel attempt
        results).validation_passes ≤ fuel ∧
      (selective_retry_loop fill chunks generated_content spec fuel attempt
        results).retry_rounds ≤ fuel := by
  intro fuel
  induction fuel with
  | zero =>
    intro attempt results
    simp [selective_retry_loop]
  | succ n ih =>
    intro attempt results
    simp only [selective_retry_loop]
    by_cases h :
        (identify_failed_chunk_ids
          (validate_chunk_results results spec)).isEmpty
    · simp [h]
    · simp only [h, Bool.false_eq_true, if_false]
      exact ⟨Nat.succ_le_succ (ih _ _).1, Nat.succ_le_succ (ih _ _).2⟩

/-- C1: for every chunk list and every behaviour of the filler capability,
the selective retry coordinator terminates (it is a total function of this
embedding), performing at most `max_retry_attempts + 1` chunk-validation
passes and at most `max_retry_attempts` retry rounds; with the default
`max_retry_attempts = 2` that is at most 3 validation passes and 2 retry
rounds. -/
theorem selective_retry_terminates_within_bounds (fill : Filler)
    (chunks : List HTMLChunk) (generated_content : GeneratedContent)
    (spec : WhitePageSpec) (max_retry_attempts : Nat) :
    (process_chunks_with_selective_retry fill chunks generated_content spec
      max_retry_attempts).validation_passes ≤ max_retry_attempts + 1 ∧
    (process_chunks_with_selective_retry fill chunks generated_content spec
      max_retry_attempts).retry_rounds ≤ max_retry_attempts := by
  have h := selective_retry_loop_bounds fill chunks generated_content spec
    max_retry_attempts 0
    (process_chunks_parallel fill chunks generated_content spec).1
  simp only [process_chunks_with_selective_retry]
  exact ⟨Nat.le_succ_of_le h.1, h.2⟩

/-! ### Merge-by-id (C3) -/

lemma retry_dict_find_eq (retry : List ChunkProcessingResult) (id : String) :
    retry_dict_find retry id =
      retry.reverse.find? (fun r => r.chunk_id == id) := by
  suffices h : ∀ (acc : Option ChunkProcessingResult),
      retry.foldl (fun acc r => if r.chunk_id == id then some r else acc) acc =
        (retry.reverse.find? (fun r => r.chunk_id == id)).or acc by
    have := h none
    simpa [retry_dict_find] using this
  induction retry with
  | nil => intro acc; simp
  | cons x xs ih =>
    intro acc
    simp only [List.foldl_cons, List.reverse_cons, List.find?_append, ih]
    by_cases hx : x.chunk_id == id
    · cases hfind : xs.reverse.find? (fun r => r.chunk_id == id) <;>
        simp [hx, List.find?, hfind, Option.or]
    · cases hfind : xs.reverse.find? (fun r => r.chunk_id == id) <;>
        simp [hx, List.find?, hfind, Option.or]

lemma retry_dict_find_some {retry : List ChunkProcessingResult} {id : String}
    {x : ChunkProcessingResult} (h : retry_dict_find retry id = some x) :
    x.chunk_id = id := by
  rw [retry_dict_find_eq] at h
  have := List.find?_some h
  simpa using this

lemma retry_dict_find_none_iff (retry : List ChunkProcessingResult)
    (id : String) :
    retry_dict_find retry id = none ↔ ∀ x ∈ retry, x.chunk_id ≠ id := by
  rw [retry_dict_find_eq, List.find?_eq_none]
  constructor
  · intro h x hx
    have := h x (by simpa using hx)
    simpa using this
  · intro h x hx
    have := h x (by simpa using hx)
    simpa using this

/-- C3: the merge step keeps exactly one result per prior result, in
order (`merged[i]` carries the same chunk id as `original[i]`); a chunk id
present in the retry output receives the retry result, with the last
retry entry for that id winning (the dictionary comprehension overwrites);
every other chunk id keeps its previous result unchanged. -/
theorem merge_results_last_writer_wins
    (original retry : List ChunkProcessingResult) :
    (merge_chunk_results original retry).length = original.length ∧
    ∀ (i : Nat) (oi : ChunkProcessingResult), original[i]? = some oi →
      (merge_chunk_results original retry)[i]? =
        some ((retry_dict_find retry oi.chunk_id).getD oi) ∧
      (∀ x, retry_dict_find retry oi.chunk_id = some x →
        x.chunk_id = oi.chunk_id ∧
        retry.reverse.find? (fun y => y.chunk_id == oi.chunk_id) = some x) ∧
      ((∀ x ∈ retry, x.chunk_id ≠ oi.chunk_id) →
        (merge_chunk_results original retry)[i]? = some oi) := by
  constructor
  · simp [merge_chunk_results]
  · intro i oi hoi
    have hmap : (merge_chunk_results original retry)[i]? =
        some (match retry_dict_find retry oi.chunk_id with
              | some r => r
              | none => oi) := by
      simp [merge_chunk_results, List.getElem?_map, hoi]
    refine ⟨?_, ?_, ?_⟩
    · cases hfind : retry_dict_find retry oi.chunk_id <;>
        simpa [hfind, Option.getD] using hmap
    · intro x hx
      exact ⟨retry_dict_find_some hx, by
        rw [retry_dict_find_eq] at hx
        exact hx⟩
    · intro hnone
      have : retry_dict_find retry oi.chunk_id = none :=
        (retry_dict_find_none_iff retry oi.chunk_id).mpr hnone
      simpa [this] using hmap

/-- Witness for C3 at a concrete merge: the second original result is
overwritten by the last retry entry for its id and the first is kept. -/
theorem merge_results_last_writer_wins_witness :
    (([{ result_placeholder_email with chunk_id := "a" },
       { result_placeholder_email with chunk_id := "b" }] :
        List ChunkProcessingResult)[1]? =
      some { result_placeholder_email with chunk_id := "b" }) ∧
    (merge_chunk_results
      [{ result_placeholder_email with chunk_id := "a" },
       { result_placeholder_email with chunk_id := "b" }]
      [{ result_brandless with chunk_id := "b" },
       { result_brandless with chunk_id := "b", validation_score := 0 }])[1]? =
      some ((retry_dict_find
        [{ result_brandless with chunk_id := "b" },
         { result_brandless with chunk_id := "b", validation_score := 0 }]
        "b").getD { result_placeholder_email with chunk_id := "b" }) := by
  refine ⟨by decide, ?_⟩
  have h := (merge_results_last_writer_wins
    [{ result_placeholder_email with chunk_id := "a" },
     { result_placeholder_email with chunk_id := "b" }]
    [{ result_brandless with chunk_id := "b" },
     { result_brandless with chunk_id := "b", validation_score := 0 }]).2
    1 { result_placeholder_email with chunk_id := "b" } (by decide)
  exact h.1

/-! ### Chunk validator scenarios (C7, C10) -/

lemma brand_presence_valid_for_placeholder_email (spec : WhitePageSpec) :
    validate_brand_presence spec "Contact: test@example.com" = (true, []) := by
  unfold validate_brand_presence
  have hg : (generic_brands.any fun g =>
      pyIn g (strLower "Contact: test@example.com")) = false := by decide
  have hw : ((["jewelry", "store", "brand"] : List String).any fun w =>
      pyIn w (strLower "Contact: test@example.com")) = false := by decide
  simp [hg, hw]

lemma contact_info_invalid_for_placeholder_email (spec : WhitePageSpec)
    (he : spec.contact_email = "info@brand.com") :
    validate_contact_info spec "Contact: test@example.com" =
      (false, ["Contains generic email instead of info@brand.com"]) := by
  unfold validate_contact_info
  rw [he]
  have h1 : pyIn "@" "Contact: test@example.com" = true := by decide
  have h2 : pyIn "info@brand.com" "Contact: test@example.com" = false := by
    decide
  have h3 : pyIn "example.com" "Contact: test@example.com" = true := by decide
  have h4 : (phone_patterns.any fun p =>
      pyIn p "Contact: test@example.com") = false := by decide
  have h5 : pyIn "москва" (strLower "Contact: test@example.com") = false := by
    decide
  have h6 : pyIn "moscow" (strLower "Contact: test@example.com") = false := by
    decide
  simp [h1, h2, h3, h4, h5, h6]

/-- Counterexample to C7 as stated: for a concrete specification whose
contact email is `info@brand.com`, the chunk content
`"Contact: test@example.com"` is NOT flagged — the score is exactly 0.8
(not strictly below it) and `needs_regeneration` is `false`, because
`needs_regeneration` requires score < 0.7 or a brand mismatch. -/
theorem placeholder_email_counterexample :
    spec_jewelry.contact_email = "info@brand.com" ∧
    ¬ (∀ v ∈ validate_chunk_results [result_placeholder_email] spec_jewelry,
        v.score < 4/5 ∧ v.needs_regeneration = true) := by
  constructor
  · rfl
  · decide

/-- C7 amended: for every specification whose contact email is
`info@brand.com`, validating the chunk content
`"Contact: test@example.com"` reports a (generic-email) error and scores
at most 0.8 — but the score stays at least 0.7, the chunk remains
`is_valid`, and `needs_regeneration` is `false`. -/
theorem placeholder_email_scores_low_but_no_regeneration
    (spec : WhitePageSpec) (r : ChunkProcessingResult)
    (he : spec.contact_email = "info@brand.com")
    (hc : r.processed_content = "Contact: test@example.com") :
    ∃ v, validate_chunk_results [r] spec = [v] ∧
      v.chunk_id = r.chunk_id ∧
      v.errors ≠ [] ∧
      7/10 ≤ v.score ∧ v.score ≤ 4/5 ∧
      v.is_valid = true ∧
      v.needs_regeneration = false := by
  have hbrand := brand_presence_valid_for_placeholder_email spec
  have hcontact := contact_info_invalid_for_placeholder_email spec he
  simp only [validate_chunk_results, List.map_cons, List.map_nil, hc]
  refine ⟨_, rfl, rfl, ?_⟩
  unfold validate_chunk_content
  rw [hbrand, hcontact]
  by_cases hrel :
      (validate_content_relevance spec "Contact: test@example.com").1
  · simp [hrel]
    norm_num
  · simp [hrel]
    norm_num

/-- Witness for the amended C7 at the concrete specification. -/
theorem placeholder_email_scores_low_witness :
    spec_jewelry.contact_email = "info@brand.com" ∧
    result_placeholder_email.processed_content = "Contact: test@example.com" ∧
    ∃ v, validate_chunk_results [result_placeholder_email] spec_jewelry = [v] ∧
      v.chunk_id = result_placeholder_email.chunk_id ∧
      v.errors ≠ [] ∧
      7/10 ≤ v.score ∧ v.score ≤ 4/5 ∧
      v.is_valid = true ∧
      v.needs_regeneration = false :=
  ⟨rfl, rfl,
    placeholder_email_scores_low_but_no_regeneration spec_jewelry
      result_placeholder_email rfl rfl⟩

lemma brand_presence_invalid_of_brandless_context (spec : WhitePageSpec)
    (content : String)
    (hb : pyIn (strLower spec.brand_name) (strLower content) = false)
    (hw : (["jewelry", "store", "brand"] : List String).any
      (fun w => pyIn w (strLower content)) = true) :
    (validate_brand_presence spec content).1 = false ∧
    (validate_brand_presence spec content).2 ≠ [] := by
  unfold validate_brand_presence
  by_cases hg : generic_brands.any (fun g => pyIn g (strLower content))
  · simp [hg, hb]
  · simp [hg, hb, hw]

/-- C10: content in a brand-related context (it mentions `jewelry`,
`store` or `brand`) that lacks the specification's brand name always
yields a brand error, the ×0.7 factor on the score, a brand-mismatch flag,
and `needs_regeneration = true` — independently of whether the final
score still clears the 0.7 validity threshold. -/
theorem brandless_context_forces_regeneration (spec : WhitePageSpec)
    (r : ChunkProcessingResult)
    (hb : pyIn (strLower spec.brand_name)
      (strLower r.processed_content) = false)
    (hw : pyIn "jewelry" (strLower r.processed_content) = true ∨
          pyIn "store" (strLower r.processed_content) = true ∨
          pyIn "brand" (strLower r.processed_content) = true) :
    (validate_chunk_content spec r.processed_content).has_brand_mismatch =
      true ∧
    (validate_chunk_content spec r.processed_content).errors ≠ [] ∧
    (validate_chunk_content spec r.processed_content).score =
      7/10 *
      (if (validate_contact_info spec r.processed_content).1 then 1
        else 8/10) *
      (if (validate_content_relevance spec r.processed_content).1 then 1
        else 9/10) ∧
    (validate_chunk_results [r] spec).map (fun v => v.needs_regeneration) =
      [true] := by
  have hany : (["jewelry", "store", "brand"] : List String).any
      (fun w => pyIn w (strLower r.processed_content)) = true := by
    rcases hw with h | h | h <;> simp [List.any, h]
  have hbrand := brand_presence_invalid_of_brandless_context spec
    r.processed_content hb hany
  rcases hbv : validate_brand_presence spec r.processed_content with ⟨bval, berrs⟩
  rw [hbv] at hbrand
  simp only at hbrand
  obtain ⟨hbval, hberrs⟩ := hbrand
  subst hbval
  have hmis : (validate_chunk_content spec r.processed_content).has_brand_mismatch
      = true := by
    unfold validate_chunk_content
    rw [hbv]
    simp
  have herr : (validate_chunk_content spec r.processed_content).errors ≠ [] := by
    unfold validate_chunk_content
    rw [hbv]
    by_cases hcon : (validate_contact_info spec r.processed_content).1 <;>
      simp [hcon, List.append_eq_nil, hberrs]
  have hscore : (validate_chunk_content spec r.processed_content).score =
      7/10 *
      (if (validate_contact_info spec r.processed_content).1 then 1
        else 8/10) *
      (if (validate_content_relevance spec r.processed_content).1 then 1
        else 9/10) := by
    unfold validate_chunk_content
    rw [hbv]
    by_cases hcon : (validate_contact_info spec r.processed_content).1 <;>
      by_cases hrel : (validate_content_relevance spec r.processed_content).1 <;>
      simp [hcon, hrel]
  have hreg : (validate_chunk_results [r] spec).map
      (fun v => v.needs_regeneration) = [true] := by
    simp [validate_chunk_results, hmis]
  exact ⟨hmis, herr, hscore, hreg⟩

/-- Witness for C10: content `"jewelry"` under the `Zolto` specification
scores exactly 0.7 (so `is_valid` is `true`) yet is forced to
regenerate. -/
theorem brandless_context_forces_regeneration_witness :
    pyIn (strLower spec_jewelry.brand_name)
      (strLower result_brandless.processed_content) = false ∧
    pyIn "jewelry" (strLower result_brandless.processed_content) = true ∧
    (validate_chunk_content spec_jewelry
      result_brandless.processed_content).score = 7/10 ∧
    (validate_chunk_content spec_jewelry
      result_brandless.processed_content).is_valid = true ∧
    (validate_chunk_results [result_brandless] spec_jewelry).map
      (fun v => v.needs_regeneration) = [true] :=
  ⟨by decide, by decide, by decide, by decide,
    (brandless_context_forces_regeneration spec_jewelry result_brandless
      (by decide) (Or.inl (by decide))).2.2.2⟩

/-! ### Concurrency bound of the filler pool (C9) -/

lemma runningCount_set (l : List TaskPhase) (i : Nat) (a b : TaskPhase)
    (h : l[i]? = some a) :
    ((l.set i b).filter (fun t => t == TaskPhase.running)).length +
      (if a == TaskPhase.running then 1 else 0) =
    (l.filter (fun t => t == TaskPhase.running)).length +
      (if b == TaskPhase.running then 1 else 0) := by
  induction l generalizing i with
  | nil => simp at h
  | cons x xs ih =>
    cases i with
    | zero =>
      simp only [List.getElem?_cons_zero, Option.some.injEq] at h
      subst h
      simp only [List.set_cons_zero, List.filter_cons]
      split_ifs <;> simp_all
    | succ j =>
      simp only [List.getElem?_cons_succ] at h
      have hj := ih j h
      simp only [List.set_cons_succ, List.filter_cons]
      split_ifs at hj ⊢ <;> (try simp only [List.length_cons] at hj ⊢) <;> omega

lemma sem_invariant (width : Nat) (s : SemState)
    (h : SemReachable width s) : runningCount s + s.sem = width := by
  induction h with
  | init n =>
    simp [runningCount, semInit, List.filter_replicate]
  | @step s1 t1 hr hstep ih =>
    cases hstep with
    | acquire i s2 hi hsem =>
      have hcount := runningCount_set s1.tasks i .pending .running hi
      simp only [runningCount] at ih ⊢
      simp at hcount
      omega
    | release i s2 hi =>
      have hcount := runningCount_set s1.tasks i .running .finished hi
      simp only [runningCount] at ih ⊢
      simp at hcount
      omega

/-- C9: in the transition system modelling `asyncio.Semaphore(3)` around
the filler call of `process_chunks_parallel`, every reachable scheduler
state — for any number of queued chunks and any interleaving — has at
most 3 concurrently in-flight filler calls. -/
theorem filler_concurrency_bounded (s : SemState)
    (h : SemReachable 3 s) : runningCount s ≤ 3 := by
  have := sem_invariant 3 s h
  omega

/-- Witness for C9: with 10 chunks queued and two tasks having entered the
semaphore, the reachable state shows 2 ≤ 3 in-flight calls. -/
theorem filler_concurrency_bounded_witness :
    SemReachable 3 two_running_state ∧
    runningCount two_running_state ≤ 3 := by
  have h0 : SemReachable 3 (semInit 3 10) := SemReachable.init 10
  have h1 := SemReachable.step h0
    (SemStep.acquire 0 (semInit 3 10) (by decide) (by decide))
  have h2 := SemReachable.step h1
    (SemStep.acquire 1 _ (by decide) (by decide))
  have heq : two_running_state =
      { sem := 3 - 1 - 1
        tasks := (((semInit 3 10).tasks.set 0 TaskPhase.running).set 1
          TaskPhase.running) } := by decide
  rw [heq]
  exact ⟨h2, filler_concurrency_bounded _ h2⟩

/-! ### Parallel executor (C4) and non-modifiable pass-through (C2) -/

lemma process_chunk_chunk_id (fill : Filler) (c : HTMLChunk)
    (gc : GeneratedContent) (spec : WhitePageSpec) :
    (process_chunk fill c gc spec).1.chunk_id = c.id := by
  unfold process_chunk
  by_cases hm : c.metadata.modifiable
  · simp only [hm, Bool.not_true, Bool.false_eq_true, if_false]
    by_cases hh : (c.chunk_type == "head") = true
    · simp [hh]
    · simp only [hh, Bool.false_eq_true, if_false]
      cases hf : fill (chunk_modification_call base_system_message c gc spec) <;>
        simp [hf, create_error_result]
  · simp only [Bool.not_eq_true] at hm
    simp [hm]

lemma process_chunk_log (fill : Filler) (c : HTMLChunk)
    (gc : GeneratedContent) (spec : WhitePageSpec) :
    ∀ e ∈ (process_chunk fill c gc spec).2, e.1 = c.id := by
  unfold process_chunk
  by_cases hm : c.metadata.modifiable
  · simp only [hm, Bool.not_true, Bool.false_eq_true, if_false]
    by_cases hh : (c.chunk_type == "head") = true
    · simp [hh]
    · simp only [hh, Bool.false_eq_true, if_false]
      cases hf : fill (chunk_modification_call base_system_message c gc spec) <;>
        simp [hf]
  · simp only [Bool.not_eq_true] at hm
    simp [hm]

lemma process_chunk_congr {fill fill2 : Filler} (c : HTMLChunk)
    (gc : GeneratedContent) (spec : WhitePageSpec)
    (hagree : fill2 (chunk_modification_call base_system_message c gc spec) =
      fill (chunk_modification_call base_system_message c gc spec)) :
    process_chunk fill2 c gc spec = process_chunk fill c gc spec := by
  unfold process_chunk
  simp only [hagree]

/-- C4: the bounded filler executor returns exactly one result per input
chunk in input order (`results[i]` is the processed result of `chunks[i]`,
carrying that chunk's id); a filler exception on a modifiable non-head
chunk becomes a zero-score result carrying the exception message and the
chunk's original content; and the result at position `i` depends only on
the filler's behaviour on that chunk's own request, so another chunk's
failure cannot change or lose it. -/
theorem parallel_executor_isolated_per_chunk (fill : Filler)
    (chunks : List HTMLChunk) (generated_content : GeneratedContent)
    (spec : WhitePageSpec) :
    (process_chunks_parallel fill chunks generated_content spec).1.length =
      chunks.length ∧
    ∀ (i : Nat) (c : HTMLChunk), chunks[i]? = some c →
      (process_chunks_parallel fill chunks generated_content spec).1[i]? =
        some (process_chunk fill c generated_content spec).1 ∧
      (process_chunk fill c generated_content spec).1.chunk_id = c.id ∧
      (c.metadata.modifiable = true → (c.chunk_type == "head") = false →
        ∀ e, fill (chunk_modification_call base_system_message c
            generated_content spec) = .error e →
          (process_chunk fill c generated_content spec).1 =
            { chunk_id := c.id
              processed_content := c.content
              validation_score := 0
              errors := [e]
              warnings := [] }) ∧
      (∀ fill2 : Filler,
        fill2 (chunk_modification_call base_system_message c
          generated_content spec) =
          fill (chunk_modification_call base_system_message c
            generated_content spec) →
        (process_chunks_parallel fill2 chunks generated_content spec).1[i]? =
          (process_chunks_parallel fill chunks generated_content
            spec).1[i]?) := by
  refine ⟨by simp [process_chunks_parallel], ?_⟩
  intro i c hi
  refine ⟨?_, process_chunk_chunk_id fill c generated_content spec, ?_, ?_⟩
  · simp [process_chunks_parallel, List.getElem?_map, hi]
  · intro hm hh e hf
    unfold process_chunk
    simp [hm, hh, hf, create_error_result]
  · intro fill2 hagree
    simp [process_chunks_parallel, List.getElem?_map, hi,
      process_chunk_congr c generated_content spec hagree]

/-- Witness for C4 at concrete inputs: a raising filler on a two-chunk
list yields the error result at the failing chunk and leaves the other
chunk's result in place. -/
theorem parallel_executor_isolated_per_chunk_witness :
    ([chunk_nav, chunk_main] : List HTMLChunk)[1]? = some chunk_main ∧
    (process_chunks_parallel filler_raise [chunk_nav, chunk_main] content0
        spec_jewelry).1[1]? =
      some (process_chunk filler_raise chunk_main content0 spec_jewelry).1 ∧
    (process_chunk filler_raise chunk_main content0 spec_jewelry).1 =
      { chunk_id := chunk_main.id
        processed_content := chunk_main.content
        validation_score := 0
        errors := ["boom"]
        warnings := [] } := by
  have h := (parallel_executor_isolated_per_chunk filler_raise
    [chunk_nav, chunk_main] content0 spec_jewelry).2 1 chunk_main (by decide)
  exact ⟨by decide, h.1,
    h.2.2.1 (by decide) (by decide) "boom" rfl⟩

lemma enhanced_chunk_id (fill : Filler) (c : HTMLChunk)
    (gc : GeneratedContent) (spec : WhitePageSpec) (k : Nat) :
    (process_chunk_with_enhanced_instructions fill c gc spec k).1.chunk_id =
      c.id := by
  unfold process_chunk_with_enhanced_instructions
  by_cases hm : c.metadata.modifiable
  · simp only [hm, Bool.not_true, Bool.false_eq_true, if_false]
    cases hf : fill (chunk_modification_call
        (enhanced_system_message gc spec k) c gc spec) <;>
      simp [hf, create_error_result]
  · simp only [Bool.not_eq_true] at hm
    simp [hm, create_unmodified_result]

lemma enhanced_nonmodifiable (fill : Filler) (c : HTMLChunk)
    (gc : GeneratedContent) (spec : WhitePageSpec) (k : Nat)
    (hm : c.metadata.modifiable = false) :
    process_chunk_with_enhanced_instructions fill c gc spec k =
      (create_unmodified_result c, []) := by
  unfold process_chunk_with_enhanced_instructions
  simp [hm]

lemma retry_results_mem {fill : Filler} {failed : List HTMLChunk}
    {gc : GeneratedContent} {spec : WhitePageSpec} {k : Nat}
    {x : ChunkProcessingResult}
    (hx : x ∈ (retry_failed_chunks fill failed gc spec k).1) :
    ∃ d ∈ failed,
      x = (process_chunk_with_enhanced_instructions fill d
        (enhance_content_for_retry gc spec k) spec k).1 := by
  simp only [retry_failed_chunks, List.map_map, List.mem_map] at hx
  obtain ⟨d, hd, hxd⟩ := hx
  exact ⟨d, hd, hxd.symm⟩

lemma retry_log_mem {fill : Filler} {failed : List HTMLChunk}
    {gc : GeneratedContent} {spec : WhitePageSpec} {k : Nat}
    {e : String × LLMCall}
    (he : e ∈ (retry_failed_chunks fill failed gc spec k).2) :
    ∃ d ∈ failed,
      e ∈ (process_chunk_with_enhanced_instructions fill d
        (enhance_content_for_retry gc spec k) spec k).2 := by
  simp only [retry_failed_chunks, List.map_map, List.mem_flatten,
    List.mem_map] at he
  obtain ⟨l, ⟨d, hd, hld⟩, hel⟩ := he
  rw [← hld] at hel
  exact ⟨d, hd, hel⟩

lemma enhanced_log (fill : Filler) (c : HTMLChunk) (gc : GeneratedContent)
    (spec : WhitePageSpec) (k : Nat) :
    ∀ e ∈ (process_chunk_with_enhanced_instructions fill c gc spec k).2,
      e.1 = c.id := by
  unfold process_chunk_with_enhanced_instructions
  by_cases hm : c.metadata.modifiable
  · simp only [hm, Bool.not_true, Bool.false_eq_true, if_false]
    cases hf : fill (chunk_modification_call
        (enhanced_system_message gc spec k) c gc spec) <;> simp [hf]
  · simp only [Bool.not_eq_true] at hm
    simp [hm]

lemma merge_getElem_eq (o r : List ChunkProcessingResult) (i : Nat)
    (oi : ChunkProcessingResult) (v : Option ChunkProcessingResult)
    (hoi : o[i]? = some oi) (hfind : retry_dict_find r oi.chunk_id = v) :
    (merge_chunk_results o r)[i]? = some (v.getD oi) := by
  have hmap : (merge_chunk_results o r)[i]? =
      some (match retry_dict_find r oi.chunk_id with
            | some x => x
            | none => oi) := by
    simp [merge_chunk_results, List.getElem?_map, hoi]
  rw [hfind] at hmap
  cases v <;> simpa using hmap

lemma retry_dict_find_mem {retry : List ChunkProcessingResult} {id : String}
    {x : ChunkProcessingResult} (h : retry_dict_find retry id = some x) :
    x ∈ retry := by
  rw [retry_dict_find_eq] at h
  exact List.mem_reverse.mp (List.mem_of_find?_eq_some h)

/-- C2: a chunk whose metadata marks it non-modifiable keeps, across the
initial parallel pass and every retry round, a pass-through result (its
original content, score 1.0, no errors, one non-modifiability warning) at
its input position, and the filler capability is never invoked for it:
the invocation log of the whole coordinator run carries no entry tagged
with its id.  (Chunk ids are unique per document, the data-model
invariant of the chunker.) -/
theorem nonmodifiable_chunk_passthrough (fill : Filler)
    (chunks : List HTMLChunk) (generated_content : GeneratedContent)
    (spec : WhitePageSpec) (max_retry_attempts : Nat) (c : HTMLChunk) (i : Nat)
    (hnodup : (chunks.map (fun ch => ch.id)).Nodup)
    (hi : chunks[i]? = some c)
    (hmod : c.metadata.modifiable = false) :
    (process_chunks_with_selective_retry fill chunks generated_content spec
      max_retry_attempts).results[i]? =
      some { chunk_id := c.id
             processed_content := c.content
             validation_score := 1
             errors := []
             warnings := ["Chunk marked as non-modifiable"] } ∧
    ∀ e ∈ (process_chunks_with_selective_retry fill chunks generated_content
      spec max_retry_attempts).llm_log, e.1 ≠ c.id := by
  have hcmem : c ∈ chunks := List.getElem?_mem hi
  have hinj := List.inj_on_of_nodup_map hnodup
  have hpass : ({ chunk_id := c.id
                  processed_content := c.content
                  validation_score := 1
                  errors := []
                  warnings := ["Chunk marked as non-modifiable"] } :
      ChunkProcessingResult) = create_unmodified_result c := rfl
  rw [hpass]
  -- any retry batch drawn from the document's chunks writes either nothing
  -- or the same pass-through result under c's id
  have hretry : ∀ (failed : List HTMLChunk) (k : Nat),
      (∀ d ∈ failed, d ∈ chunks) →
      retry_dict_find (retry_failed_chunks fill failed generated_content spec
        k).1 c.id = none ∨
      retry_dict_find (retry_failed_chunks fill failed generated_content spec
        k).1 c.id = some (create_unmodified_result c) := by
    intro failed k hsub
    cases hfind : retry_dict_find
        (retry_failed_chunks fill failed generated_content spec k).1 c.id with
    | none => exact Or.inl rfl
    | some x =>
      refine Or.inr ?_
      obtain ⟨d, hd, hxd⟩ := retry_results_mem (retry_dict_find_mem hfind)
      have hxid : x.chunk_id = c.id := retry_dict_find_some hfind
      have hdid : d.id = c.id := by
        rw [hxd, enhanced_chunk_id] at hxid
        exact hxid
      have hdc : d = c := hinj (hsub d hd) hcmem hdid
      have hxc : x = create_unmodified_result c := by
        rw [hxd, hdc, enhanced_nonmodifiable fill c
          (enhance_content_for_retry generated_content spec k) spec k hmod]
      rw [← hxc]
  -- the retry loop preserves the pass-through result and logs nothing for c
  have hloop : ∀ (fuel attempt : Nat) (results : List ChunkProcessingResult),
      results[i]? = some (create_unmodified_result c) →
      (selective_retry_loop fill chunks generated_content spec fuel attempt
        results).results[i]? = some (create_unmodified_result c) ∧
      ∀ e ∈ (selective_retry_loop fill chunks generated_content spec fuel
        attempt results).llm_log, e.1 ≠ c.id := by
    intro fuel
    induction fuel with
    | zero =>
      intro attempt results hres
      simp [selective_retry_loop, hres]
    | succ n ih =>
      intro attempt results hres
      simp only [selective_retry_loop]
      by_cases hfail : (identify_failed_chunk_ids
          (validate_chunk_results results spec)).isEmpty
      · simp [hfail, hres]
      · simp only [hfail, Bool.false_eq_true, if_false]
        have hmerge : (merge_chunk_results results
            (retry_failed_chunks fill
              (chunks.filter (fun ch =>
                (identify_failed_chunk_ids
                  (validate_chunk_results results spec)).contains ch.id))
              generated_content spec (attempt + 1)).1)[i]? =
            some (create_unmodified_result c) := by
          have hsub : ∀ d ∈ chunks.filter (fun ch =>
              (identify_failed_chunk_ids
                (validate_chunk_results results spec)).contains ch.id),
              d ∈ chunks := by
            intro d hd
            exact (List.mem_filter.mp hd).1
          rcases hretry (chunks.filter (fun ch =>
              (identify_failed_chunk_ids
                (validate_chunk_results results spec)).contains ch.id))
              (attempt + 1) hsub with hnone | hsome
          · rw [merge_getElem_eq results _ i (create_unmodified_result c) none
              hres hnone]
            simp
          · rw [merge_getElem_eq results _ i (create_unmodified_result c)
              (some (create_unmodified_result c)) hres hsome]
            simp
        have hrest := ih (attempt + 1) _ hmerge
        refine ⟨hrest.1, ?_⟩
        intro e he
        simp only [List.mem_append] at he
        rcases he with he | he
        · obtain ⟨d, hd, hed⟩ := retry_log_mem he
          have hdid : e.1 = d.id := enhanced_log _ _ _ _ _ e hed
          intro hec
          have hdc : d = c :=
            hinj ((List.mem_filter.mp hd).1) hcmem (by rw [← hdid, hec])
          rw [hdc, enhanced_nonmodifiable _ _ _ _ _ hmod] at hed
          simp at hed
        · exact hrest.2 e he
  -- the initial parallel pass
  have hinit : (process_chunks_parallel fill chunks generated_content
      spec).1[i]? = some (create_unmodified_result c) := by
    have : process_chunk fill c generated_content spec =
        (create_unmodified_result c, []) := by
      unfold process_chunk
      simp [hmod, create_unmodified_result]
    simp [process_chunks_parallel, List.getElem?_map, hi, this]
  have hinitlog : ∀ e ∈ (process_chunks_parallel fill chunks generated_content
      spec).2, e.1 ≠ c.id := by
    intro e he
    simp only [process_chunks_parallel, List.map_map, List.mem_flatten,
      List.mem_map] at he
    obtain ⟨l, ⟨d, hd, hld⟩, hel⟩ := he
    rw [← hld] at hel
    have hdid : e.1 = d.id := process_chunk_log _ _ _ _ e hel
    intro hec
    have hdc : d = c := hinj hd hcmem (by rw [← hdid, hec])
    rw [hdc] at hel
    simp only [Function.comp_apply] at hel
    have hpc : process_chunk fill c generated_content spec =
        (create_unmodified_result c, []) := by
      unfold process_chunk
      simp [hmod, create_unmodified_result]
    rw [hpc] at hel
    simp at hel
  have hfinal := hloop max_retry_attempts 0
    (process_chunks_parallel fill chunks generated_content spec).1 hinit
  refine ⟨?_, ?_⟩
  · simp only [process_chunks_with_selective_retry]
    exact hfinal.1
  · intro e he
    simp only [process_chunks_with_selective_retry, List.mem_append] at he
    rcases he with he | he
    · exact hinitlog e he
    · exact hfinal.2 e he

/-- Witness for C2: the non-modifiable `nav` chunk passes through a full
coordinator run with an always-raising filler, and the run's log never
mentions it. -/
theorem nonmodifiable_chunk_passthrough_witness :
    ((([chunk_nav, chunk_main] : List HTMLChunk).map
        (fun ch => ch.id)).Nodup ∧
      ([chunk_nav, chunk_main] : List HTMLChunk)[0]? = some chunk_nav ∧
      chunk_nav.metadata.modifiable = false) ∧
    (process_chunks_with_selective_retry filler_raise [chunk_nav, chunk_main]
      content0 spec_jewelry 2).results[0]? =
      some { chunk_id := chunk_nav.id
             processed_content := chunk_nav.content
             validation_score := 1
             errors := []
             warnings := ["Chunk marked as non-modifiable"] } ∧
    ∀ e ∈ (process_chunks_with_selective_retry filler_raise
      [chunk_nav, chunk_main] content0 spec_jewelry 2).llm_log,
      e.1 ≠ chunk_nav.id := by
  refine ⟨⟨by decide, by decide, by decide⟩, ?_⟩
  exact nonmodifiable_chunk_passthrough filler_raise [chunk_nav, chunk_main]
    content0 spec_jewelry 2 chunk_nav 0 (by decide) (by decide) (by decide)

/-! ### Error classification and brand fixer (C8) -/

/-- C8 counterexample: the brand fixer does NOT always remove every
occurrence of the matched generic brand.  When the specification's own
brand name extends the generic pattern (here `Lumina Jewelry Shop`
extends `Lumina Jewelry`), the substitution re-introduces the pattern:
fixing the document `"Lumina Jewelry"` yields `"Lumina Jewelry Shop"`,
which still contains the substring `"Lumina Jewelry"`. -/
theorem brand_fix_pattern_remains_counterexample :
    ¬ (∀ (spec : WhitePageSpec) (doc : String),
        pyIn "Lumina Jewelry" doc = true →
        pyIn "Lumina Jewelry"
          (brand_fix spec
            (create_brand_issue spec "Brand mismatch: found Lumina Jewelry" doc)
            doc) = false) := by
  intro h
  have h2 := h spec_lumina_shop "Lumina Jewelry" (by decide)
  have h3 : pyIn "Lumina Jewelry"
      (brand_fix spec_lumina_shop
        (create_brand_issue spec_lumina_shop
          "Brand mismatch: found Lumina Jewelry" "Lumina Jewelry")
        "Lumina Jewelry") = true := by decide
  rw [h2] at h3
  exact Bool.false_ne_true h3

/-- C8 (amended): for every spec and document, classifying the error list
`["Brand mismatch: found Lumina Jewelry"]` yields exactly one
`ValidationIssue`, with `issue_type` BRAND_MISMATCH and severity
CRITICAL; keyword matching is case-insensitive and follows the handler
table's order (an error mentioning both `address` and `brand` classifies
as a brand issue because `brand` comes first in the table), and an error
matching no keyword yields no issue.  Applying the derived issue's brand
fixer to the document `c8_doc`, which contains the literal substring
`"Lumina Jewelry"`, under a spec whose brand name (`Zolto`) does not
itself contain the generic pattern, yields a document with zero
occurrences of that substring and the spec's brand name in its place. -/
theorem brand_error_classification_and_fix :
    (∀ (spec : WhitePageSpec) (html : String),
      analyze_validation_errors spec
          ["Brand mismatch: found Lumina Jewelry"] html =
        [create_brand_issue spec "Brand mismatch: found Lumina Jewelry" html] ∧
      (create_brand_issue spec
        "Brand mismatch: found Lumina Jewelry" html).issue_type =
          IssueType.brand_mismatch ∧
      (create_brand_issue spec
        "Brand mismatch: found Lumina Jewelry" html).severity =
          SeverityLevel.critical) ∧
    (∀ (spec : WhitePageSpec) (html : String),
      categorize_and_create_issue spec "Wrong address shown for brand" html =
        some (create_brand_issue spec "Wrong address shown for brand" html) ∧
      categorize_and_create_issue spec "Layout columns are misaligned" html =
        none) ∧
    (pyIn "Lumina Jewelry" c8_doc = true ∧
      analyze_validation_errors spec_jewelry
        ["Brand mismatch: found Lumina Jewelry"] c8_doc = [c8_issue] ∧
      brand_fix spec_jewelry c8_issue c8_doc =
        "<html><body><h1>Zolto</h1><p>Welcome to the Zolto store</p></body></html>" ∧
      pyIn "Lumina Jewelry" (brand_fix spec_jewelry c8_issue c8_doc) = false ∧
      pyIn spec_jewelry.brand_name (brand_fix spec_jewelry c8_issue c8_doc) =
        true) := by
  refine ⟨fun spec html => ⟨rfl, rfl, rfl⟩, fun spec html => ⟨rfl, rfl⟩,
    by decide, rfl, by decide, by decide, by decide⟩

/-! ### Idempotence of the targeted fix pass (C5) -/

mutual

theorem allElemsN_mono (p q : Node → Bool)
    (hpq : ∀ e, p e = true → q e = true) :
    ∀ n, allElemsN p n = true → allElemsN q n = true
  | .text _, _ => rfl
  | .elem nm a c, hall => by
    simp only [allElemsN, Bool.and_eq_true] at hall ⊢
    exact ⟨hpq _ hall.1, allElemsL_mono p q hpq c hall.2⟩

theorem allElemsL_mono (p q : Node → Bool)
    (hpq : ∀ e, p e = true → q e = true) :
    ∀ ns, allElemsL p ns = true → allElemsL q ns = true
  | [], _ => rfl
  | n :: ns, hall => by
    simp only [allElemsL, Bool.and_eq_true] at hall ⊢
    exact ⟨allElemsN_mono p q hpq n hall.1, allElemsL_mono p q hpq ns hall.2⟩

end

mutual

theorem rewritePassN_id (cond : Node → Bool)
    (g : Node → List (String × String)) (h : Node → String) :
    ∀ n, allElemsN (fun e => !cond e) n = true →
      rewritePassN cond g h n = n
  | .text _, _ => rfl
  | .elem nm a c, hall => by
    simp only [allElemsN, Bool.and_eq_true, Bool.not_eq_true'] at hall
    simp only [rewritePassN, hall.1, Bool.false_eq_true, if_false]
    rw [rewritePassL_id cond g h c hall.2]

theorem rewritePassL_id (cond : Node → Bool)
    (g : Node → List (String × String)) (h : Node → String) :
    ∀ ns, allElemsL (fun e => !cond e) ns = true →
      rewritePassL cond g h ns = ns
  | [], _ => rfl
  | n :: ns, hall => by
    simp only [allElemsL, Bool.and_eq_true] at hall
    simp only [rewritePassL]
    rw [rewritePassN_id cond g h n hall.1, rewritePassL_id cond g h ns hall.2]

end

/-- The document-wide substitution loop of `BrandFixer.fix` is the
identity when no search pattern occurs (case-sensitively) in the
document. -/
theorem brand_sub_foldl_id (brand : String) :
    ∀ (pats : List String) (d : String),
      (∀ p ∈ pats, pyIn p d = false) →
      pats.foldl (fun h old_brand =>
        if pyIn old_brand h then isubStr old_brand brand h else h) d = d
  | [], _, _ => rfl
  | p :: ps, d, hall => by
    have hp : pyIn p d = false := hall p (List.mem_cons_self p ps)
    simp only [List.foldl_cons, hp, Bool.false_eq_true, if_false]
    exact brand_sub_foldl_id brand ps d
      (fun q hq => hall q (List.mem_cons_of_mem p hq))

/-- The selector-guided rewrite loop of `BrandFixer.fix` is the identity
when no search pattern occurs case-insensitively in any element's
string. -/
theorem brand_selector_foldl_id (pats : List String) (brand : String) :
    ∀ (sels : List String) (ns : List Node),
      allElemsL (fun e => !(pats.any (fun pat =>
        pyIn (strLower pat) (strLower ((nodeString e).getD ""))))) ns = true →
      sels.foldl (fun ns2 sel =>
        rewritePassL
          (fun e =>
            matchesSelector sel e &&
            ((nodeString e).getD "" != "") &&
            pats.any (fun pat =>
              pyIn (strLower pat) (strLower ((nodeString e).getD ""))))
          (fun e => elemAttrs e)
          (fun _ => brand) ns2) ns = ns
  | [], _, _ => rfl
  | sel :: rest, ns, h3 => by
    have hall : allElemsL (fun e =>
        !(matchesSelector sel e &&
          ((nodeString e).getD "" != "") &&
          pats.any (fun pat =>
            pyIn (strLower pat) (strLower ((nodeString e).getD ""))))) ns =
          true := by
      refine allElemsL_mono _ _ ?_ ns h3
      intro e he
      simp only [Bool.not_eq_true'] at he ⊢
      simp only [he, Bool.and_false]
    simp only [List.foldl_cons]
    rw [rewritePassL_id _ _ _ ns hall]
    exact brand_selector_foldl_id pats brand rest ns h3

/-- `BrandFixer.fix` is the identity on a document in which no search
pattern occurs, whose parse serializes back to itself, and whose parsed
elements mention no search pattern case-insensitively. -/
theorem brand_fix_id (spec : WhitePageSpec) (issue : ValidationIssue)
    (d : String)
    (h1 : ∀ p ∈ issue.search_patterns, pyIn p d = false)
    (h2 : str_soup (parseHtml d) = d)
    (h3 : allElemsL (fun e => !(issue.search_patterns.any (fun pat =>
        pyIn (strLower pat) (strLower ((nodeString e).getD "")))))
        (parseHtml d) = true) :
    brand_fix spec issue d = d := by
  simp only [brand_fix]
  rw [brand_sub_foldl_id spec.brand_name issue.search_patterns d h1]
  rw [brand_selector_foldl_id issue.search_patterns spec.brand_name
    issue.affected_selectors (parseHtml d) h3]
  exact h2

/-- C5 counterexample: `apply_targeted_fixes` is NOT idempotent.  Fixing
the document `"Lumina Jewelry"` under a spec with brand name
`Lumina Jewelry Shop` yields `"Lumina Jewelry Shop"`; fixing that output
again with the same issue appends the suffix once more, giving
`"Lumina Jewelry Shop Shop"`. -/
theorem targeted_fixes_not_idempotent_counterexample :
    apply_targeted_fixes translator_fail
        (apply_targeted_fixes translator_fail "Lumina Jewelry" [issue_lumina]
          spec_lumina_shop)
        [issue_lumina] spec_lumina_shop ≠
      apply_targeted_fixes translator_fail "Lumina Jewelry" [issue_lumina]
        spec_lumina_shop ∧
    apply_targeted_fixes translator_fail "Lumina Jewelry" [issue_lumina]
        spec_lumina_shop = "Lumina Jewelry Shop" ∧
    apply_targeted_fixes translator_fail "Lumina Jewelry Shop" [issue_lumina]
        spec_lumina_shop = "Lumina Jewelry Shop Shop" := by
  refine ⟨?_, by decide, by decide⟩
  decide

/-- C5 (amended): the fix pass is idempotent exactly when its first
application settles the document.  For a single brand issue, if the first
application's output contains no search pattern (case-sensitively), parses
to a tree that serializes back to the same string, and none of its parsed
elements mentions a search pattern case-insensitively, then a second
application of `apply_targeted_fixes` with the same issue and spec returns
the output unchanged — for any translator capability on either run.  The
counterexample shows these conditions are not vacuous: a brand name that
extends a search pattern re-introduces it and breaks idempotence. -/
theorem targeted_fixes_idempotent_when_settled
    (tr tr2 : Translator) (spec : WhitePageSpec) (doc : String)
    (issue : ValidationIssue)
    (hty : issue.issue_type = IssueType.brand_mismatch)
    (h1 : ∀ p ∈ issue.search_patterns,
        pyIn p (apply_targeted_fixes tr doc [issue] spec) = false)
    (h2 : str_soup (parseHtml (apply_targeted_fixes tr doc [issue] spec)) =
        apply_targeted_fixes tr doc [issue] spec)
    (h3 : allElemsL (fun e => !(issue.search_patterns.any (fun pat =>
        pyIn (strLower pat) (strLower ((nodeString e).getD "")))))
        (parseHtml (apply_targeted_fixes tr doc [issue] spec)) = true) :
    apply_targeted_fixes tr2 (apply_targeted_fixes tr doc [issue] spec)
        [issue] spec =
      apply_targeted_fixes tr doc [issue] spec := by
  have hred : ∀ (t : Translator) (d : String),
      apply_targeted_fixes t d [issue] spec = brand_fix spec issue d := by
    intro t d
    show get_fixer_apply t spec issue d = brand_fix spec issue d
    unfold get_fixer_apply
    rw [hty]
  rw [hred tr2]
  exact brand_fix_id spec issue (apply_targeted_fixes tr doc [issue] spec)
    h1 h2 h3

/-- Witness for the amended C5 theorem: with brand `Zolto` on a document
carrying two `Lumina Jewelry` occurrences, the first application settles
the document and the second application leaves it unchanged. -/
theorem targeted_fixes_idempotent_when_settled_witness :
    apply_targeted_fixes translator_fail
        (apply_targeted_fixes translator_fail c8_doc [c8_issue] spec_jewelry)
        [c8_issue] spec_jewelry =
      apply_targeted_fixes translator_fail c8_doc [c8_issue] spec_jewelry :=
  targeted_fixes_idempotent_when_settled translator_fail translator_fail
    spec_jewelry c8_doc c8_issue (by decide) (by decide) (by decide) (by decide)

/-! ### Chunk size bound (C6) -/

lemma length_join_strings (l : List String) :
    (String.join l).length = (l.map String.length).sum := by
  suffices h : ∀ (a : String),
      (l.foldl (fun r s => r ++ s) a).length =
        a.length + (l.map String.length).sum by
    simpa [String.join] using h ""
  induction l with
  | nil => intro a; simp
  | cons x xs ih =>
    intro a
    simp [List.foldl_cons, ih, String.length_append]
    omega

lemma packGroupsAux_spec (maxSize baseSize : Nat) :
    ∀ (children current : List String) (current_size : Nat),
      current_size = (current.map String.length).sum →
      (current = [] ∨ current.length = 1 ∨
        baseSize + current_size ≤ maxSize) →
      ∀ g ∈ packGroupsAux maxSize baseSize children current current_size,
        (∀ x ∈ g, x ∈ current ∨ x ∈ children) ∧
        (g.length = 1 ∨ baseSize + (g.map String.length).sum ≤ maxSize) := by
  intro children
  induction children with
  | nil =>
    intro current current_size hsize hinv g hg
    simp only [packGroupsAux] at hg
    by_cases hcur : current.isEmpty
    · simp [hcur] at hg
    · simp only [hcur, Bool.false_eq_true, if_false, List.mem_singleton] at hg
      subst hg
      have hne : current ≠ [] := by
        simpa [List.isEmpty_iff] using hcur
      refine ⟨fun x hx => Or.inl (List.mem_reverse.mp hx), ?_⟩
      rcases hinv with h | h | h
      · exact absurd h hne
      · exact Or.inl (by simpa using h)
      · refine Or.inr ?_
        rw [List.map_reverse, List.sum_reverse, ← hsize]
        exact h
  | cons child rest ih =>
    intro current current_size hsize hinv g hg
    simp only [packGroupsAux] at hg
    by_cases hcond : (current_size + child.length + baseSize > maxSize ∧
        ¬ current.isEmpty)
    · have hb : (decide (maxSize < current_size + child.length + baseSize) &&
          !current.isEmpty) = true := by
        rcases hcond with ⟨h1, h2⟩
        simp [h1, h2]
      rw [if_pos hb] at hg
      rcases List.mem_cons.mp hg with hg | hg
      · subst hg
        have hne : current ≠ [] := by
          simpa [List.isEmpty_iff] using hcond.2
        refine ⟨fun x hx => Or.inl (List.mem_reverse.mp hx), ?_⟩
        rcases hinv with h | h | h
        · exact absurd h hne
        · exact Or.inl (by simpa using h)
        · refine Or.inr ?_
          rw [List.map_reverse, List.sum_reverse, ← hsize]
          exact h
      · have hres := ih [child] child.length (by simp) (Or.inr (Or.inl rfl))
          g hg
        refine ⟨fun x hx => ?_, hres.2⟩
        rcases (hres.1 x hx) with hx1 | hx1
        · exact Or.inr (List.mem_cons.mpr (Or.inl (by simpa using hx1)))
        · exact Or.inr (List.mem_cons.mpr (Or.inr hx1))
    · have hb : (decide (maxSize < current_size + child.length + baseSize) &&
          !current.isEmpty) = false := by
        rcases not_and_or.mp hcond with h | h
        · have hle : ¬ maxSize < current_size + child.length + baseSize := h
          simp [hle]
        · simp [not_not.mp h]
      rw [if_neg (by simp [hb])] at hg
      have hres := ih (child :: current) (current_size + child.length)
        (by simp [hsize]; omega) ?_ g hg
      · refine ⟨fun x hx => ?_, hres.2⟩
        rcases (hres.1 x hx) with hx1 | hx1
        · rcases List.mem_cons.mp hx1 with hx2 | hx2
          · exact Or.inr (List.mem_cons.mpr (Or.inl hx2))
          · exact Or.inl hx2
        · exact Or.inr (List.mem_cons.mpr (Or.inr hx1))
      · by_cases hcur : current = []
        · subst hcur
          exact Or.inr (Or.inl rfl)
        · refine Or.inr (Or.inr ?_)
          have h2 : ¬ current.isEmpty := by
            simpa [List.isEmpty_iff] using hcur
          rcases not_and_or.mp hcond with h | h
          · omega
          · exact absurd (not_not.mp h) h2

/-- C6: every chunk produced by `split_html` other than the head chunk
satisfies `size ≤ maxSize`, with one exception: a chunk that exceeds the
bound wraps exactly ONE element child — drawn from the actual children of
an over-bound structural element of the parsed document — between that
element's opening and closing tags.  In particular every emitted sub-chunk
packing two or more children fits the bound. -/
theorem chunk_size_bound (maxSize : Nat) (html css : String)
    (chunk : HTMLChunk) (hmem : chunk ∈ split_html maxSize html css)
    (hid : chunk.id ≠ "head") :
    chunk.size ≤ maxSize ∨
    ∃ (body : Node),
      findElemL (named "body") (parseHtml html) = some body ∧
      ∃ (name : String) (attrs : List (String × String))
          (children : List Node),
        Node.elem name attrs children ∈ find_structural_elements body ∧
        maxSize < (str_node (Node.elem name attrs children)).length ∧
        ∃ child ∈ children.filter isElem,
          chunk.content =
            get_opening_tag name attrs ++ str_node child ++
              ("</" ++ name ++ ">") ∧
          chunk.size = chunk.content.length ∧
          maxSize < chunk.size := by
  by_cases hle : chunk.size ≤ maxSize
  · exact Or.inl hle
  simp only [split_html, List.mem_map, List.mem_cons] at hmem
  obtain ⟨c0, hc0, hchunk⟩ := hmem
  have hsize : chunk.size = c0.size := by rw [← hchunk]
  have hcontent : chunk.content = c0.content := by rw [← hchunk]
  have hid0 : c0.id ≠ "head" := by
    intro h
    apply hid
    rw [← hchunk]
    exact h
  rcases hc0 with hc0 | hc0
  · exact absurd (by rw [hc0]; rfl) hid0
  · simp only [split_body_content] at hc0
    rcases hfind : findElemL (named "body") (parseHtml html) with _ | body
    · rw [hfind] at hc0
      simp at hc0
    · rw [hfind] at hc0
      simp only [List.mem_flatten, List.mem_map] at hc0
      obtain ⟨l, ⟨ie, hie, hl⟩, hc0l⟩ := hc0
      rw [← hl] at hc0l
      by_cases hbig : (str_node ie.2).length > maxSize
      · simp only [hbig, if_pos] at hc0l
        rcases hie2 : ie.2 with s | ⟨name, attrs, children⟩
        · rw [hie2] at hc0l
          simp [split_large_element] at hc0l
        · rw [hie2] at hc0l
          simp only [split_large_element, List.mem_map] at hc0l
          obtain ⟨cg, hcg, hc0g⟩ := hc0l
          have hg := packGroupsAux_spec maxSize
            ((get_opening_tag name attrs).length + ("</" ++ name ++ ">").length)
            ((children.filter isElem).map str_node) [] 0 (by simp)
            (Or.inl rfl) cg.2 (List.snd_mem_of_mem_enum hcg)
          rcases hg.2 with hone | hbound
          · obtain ⟨s, hs⟩ := List.length_eq_one.mp hone
            have hsmem : s ∈ (children.filter isElem).map str_node := by
              rcases hg.1 s (by rw [hs]; exact List.mem_singleton_self s)
                with h | h
              · simp at h
              · exact h
            obtain ⟨child, hchildmem, hchild⟩ := List.mem_map.mp hsmem
            refine Or.inr ⟨body, rfl, name, attrs, children, ?_, ?_,
              child, hchildmem, ?_, ?_, ?_⟩
            · rw [← hie2]
              exact List.snd_mem_of_mem_enum hie
            · rw [← hie2]
              exact hbig
            · rw [hcontent, ← hc0g]
              show get_opening_tag name attrs ++ String.join cg.2 ++
                ("</" ++ name ++ ">") = _
              rw [hs, hchild]
              rfl
            · rw [hsize, hcontent, ← hc0g]
            · omega
          · exfalso
            apply hle
            rw [hsize, ← hc0g]
            show (get_opening_tag name attrs ++ String.join cg.2 ++
              ("</" ++ name ++ ">")).length ≤ maxSize
            simp only [String.length_append, length_join_strings] at hbound ⊢
            omega
      · rw [if_neg hbig] at hc0l
        simp only [List.mem_singleton] at hc0l
        exfalso
        apply hle
        rw [hsize, hc0l]
        show (str_node ie.2).length ≤ maxSize
        omega

/-- Witness for C6 at a concrete document: with a bound of 20 the `main`
element splits into wrapper-plus-one-child sub-chunks; the emitted chunk
`section_0_0` is a member of the output, is not the head chunk, and the
theorem's disjunction holds for it (through the single-element-child
exception, since its size 24 exceeds the bound). -/
theorem chunk_size_bound_witness :
    c6_main_chunk ∈ split_html 20
      "<body><main><p>aaaa</p><p>bbbb</p></main><aside>ok</aside></body>" "" ∧
    c6_main_chunk.id ≠ "head" ∧
    (c6_main_chunk.size ≤ 20 ∨
      ∃ (body : Node),
        findElemL (named "body")
          (parseHtml
            "<body><main><p>aaaa</p><p>bbbb</p></main><aside>ok</aside></body>") =
          some body ∧
        ∃ (name : String) (attrs : List (String × String))
            (children : List Node),
          Node.elem name attrs children ∈ find_structural_elements body ∧
          20 < (str_node (Node.elem name attrs children)).length ∧
          ∃ child ∈ children.filter isElem,
            c6_main_chunk.content =
              get_opening_tag name attrs ++ str_node child ++
                ("</" ++ name ++ ">") ∧
            c6_main_chunk.size = c6_main_chunk.content.length ∧
            20 < c6_main_chunk.size) := by
  refine ⟨by decide, by decide, ?_⟩
  exact chunk_size_bound 20
    "<body><main><p>aaaa</p><p>bbbb</p></main><aside>ok</aside></body>" ""
    c6_main_chunk (by decide) (by decide)

end SpayGen
